import Mathlib

/-!
# Credit-tracker ledger: shallow embedding and verification

This file embeds the core credit ledger of the DIMO credit-tracker service
(`internal/creditrepo/creditrepo.go` and `pkg/creditservice/credit_service.go`)
and proves or refutes the frozen specification claims about it.

The database state (tables `credit_grants`, `credit_operations`,
`credit_operation_grants` of `pkg/migrations/00001_init.sql`) is modelled as
lists of rows.  Each repository method that in Go runs inside one transaction
(begin, row-locked reads, writes, commit, with rollback on error) is modelled
as a function from the pre-state to `Except RepoError (result × post-state)`:
returning an error corresponds to the transaction rolling back, so the caller
observes the unchanged pre-state.  `time.Now()` is modelled by an explicit
`now` argument.
-/

set_option linter.unusedVariables false

namespace CreditTracker

/-! ## Time

Go `time.Time` values are modelled as UTC civil date-times.  The ledger only
compares instants (`expires_at > now`, ORDER BY), adds one calendar month
(`AddDate(0, 1, 0)`), and stores them, so a (year, month, day, seconds-of-day)
quadruple is a faithful model of the instants involved.  `GoTime.key` is an
order-preserving injection into `Int` for normalized UTC date-times
(1 ≤ month ≤ 12, 1 ≤ day ≤ 31, 0 ≤ secs < 86400); all comparisons go through
it. -/

structure GoTime where
  year : Int
  month : Int
  day : Int
  secs : Int
deriving DecidableEq

/-- Order-preserving integer encoding of a normalized UTC date-time. -/
def GoTime.key (t : GoTime) : Int :=
  ((t.year * 13 + t.month) * 32 + t.day) * 86400 + t.secs

def isLeapYear (y : Int) : Bool :=
  (y % 4 == 0 && y % 100 != 0) || y % 400 == 0

def daysInMonth (y m : Int) : Int :=
  if m = 2 then (if isLeapYear y then 29 else 28)
  else if m = 4 ∨ m = 6 ∨ m = 9 ∨ m = 11 then 30
  else 31

/-- Model of Go `time.Time.AddDate(0, 1, 0)` on a normalized UTC date-time:
increment the month, roll an overflowing month into the year, and normalize a
day that exceeds the target month's length by rolling the excess into the
following month (Go obtains the same normalization by converting the
denormalized civil date through absolute days; for a day overflow of at most
31 − 28 = 3 days a single roll is that conversion). -/
def addOneMonth (t : GoTime) : GoTime :=
  let m1 := t.month + 1
  let y1 := if m1 > 12 then t.year + 1 else t.year
  let m2 := if m1 > 12 then m1 - 12 else m1
  let dim := daysInMonth y1 m2
  if t.day > dim then
    let d2 := t.day - dim
    let m3 := m2 + 1
    if m3 > 12 then { year := y1 + 1, month := 1, day := d2, secs := t.secs }
    else { year := y1, month := m3, day := d2, secs := t.secs }
  else { year := y1, month := m2, day := t.day, secs := t.secs }

/-- `getExpirationDate` (creditrepo.go): `mintTime.UTC().AddDate(0, 1, 0)`.
`GoTime` values are already UTC civil date-times, so `.UTC()` is the
identity on the instant. -/
def getExpirationDate (mintTime : GoTime) : GoTime :=
  addOneMonth mintTime

/-! ## Data model -/

/-- `credit_grants.status`: 'pending' | 'confirmed' | 'failed'. -/
inductive GrantStatus where
  | pending
  | confirmed
  | failed
deriving DecidableEq

/-- `credit_operations.operation_type`. -/
inductive OperationType where
  | deduction
  | refund
  | grantPurchase
  | grantConfirm
  | debtSettlement
deriving DecidableEq

/-- A row of `credit_grants`.  The surrogate UUID primary key is modelled as a
`Nat` handed out by the ledger's `nextGrantID` counter; `ORDER BY id` maps to
the `Nat` order. -/
structure CreditGrant where
  id : Nat
  licenseID : String
  assetDID : String
  initialAmount : Int
  remainingAmount : Int
  status : GrantStatus
  txHash : String
  logIndex : Option Int
  expiresAt : GoTime
  createdAt : GoTime
  updatedAt : GoTime
deriving DecidableEq

/-- A row of `credit_operations`; `(appName, referenceID, operationType)` is
the composite primary key. -/
structure CreditOperation where
  appName : String
  referenceID : String
  operationType : OperationType
  licenseID : String
  assetDID : String
  totalAmount : Int
  createdAt : GoTime
deriving DecidableEq

/-- A row of `credit_operation_grants` (the surrogate UUID is dropped; rows
are kept in insertion order). -/
structure CreditOperationGrant where
  appName : String
  referenceID : String
  operationType : OperationType
  grantID : Nat
  amountUsed : Int
  createdAt : GoTime
deriving DecidableEq

/-- The database state. -/
structure Ledger where
  grants : List CreditGrant
  operations : List CreditOperation
  opGrants : List CreditOperationGrant
  nextGrantID : Nat
deriving DecidableEq

/-- `math.MaxInt64`. -/
def maxInt64 : Int := 9223372036854775807

/-- `math.MaxInt64` as the bound on a Go `uint64` argument. -/
def maxInt64N : Nat := 9223372036854775807

/-- Errors a repository call can end in.  Go reports these as wrapped `error`
values; the constructors record which `return nil, err` site produced the
error, which is exactly what a caller can distinguish. -/
inductive RepoError where
  /-- "deduction amount is too large …" / "credit amount is too large …" -/
  | amountTooLarge
  /-- "invalid amount: %d. Amount must be positive" -/
  | invalidAmount
  /-- "cannot use credits, while there is outstanding debt: %d …" -/
  | outstandingDebt (debt : Int)
  /-- `InsufficientCreditsErr` wrapped with "Current: %d, Required: %d" -/
  | insufficientCredits (current required : Int)
  /-- "operation already exists" — the `IsDuplicateKeyError` branch of
  `deductCreditsInternal` (and `refundCreditsInternal`). -/
  | operationAlreadyExists
  /-- generic "failed to create operation record" (no duplicate-key
  classification at the failing site). -/
  | createOperationFailed
  /-- generic "failed to create grant record". -/
  | createGrantFailed
  /-- "… would cause integer overflow …" -/
  | arithmeticOverflow
deriving DecidableEq

/-! ## Store queries and writes -/

/-- Rows of the `(license_id, asset_did)` partition. -/
def matchesPart (license asset : String) (g : CreditGrant) : Bool :=
  decide (g.licenseID = license) && decide (g.assetDID = asset)

/-- The WHERE clause shared by `getActiveGrants` and `calculateBalance`:
partition, `remaining_amount > 0`, `expires_at > now`,
`status IN ('confirmed', 'pending')`. -/
def isActiveGrant (now : GoTime) (license asset : String) (g : CreditGrant) : Bool :=
  matchesPart license asset g
    && decide (0 < g.remainingAmount)
    && decide (now.key < g.expiresAt.key)
    && (decide (g.status = GrantStatus.confirmed) || decide (g.status = GrantStatus.pending))

/-- The WHERE clause shared by `getFailedGrants` and `getOutstandingDebt`:
partition, `status = 'failed'`, `remaining_amount < initial_amount`. -/
def isFailedWithDebt (license asset : String) (g : CreditGrant) : Bool :=
  matchesPart license asset g
    && decide (g.status = GrantStatus.failed)
    && decide (g.remainingAmount < g.initialAmount)

/-- `ORDER BY expires_at ASC, created_at ASC, id ASC` (the FIFO order). -/
def fifoLe (a b : CreditGrant) : Prop :=
  a.expiresAt.key < b.expiresAt.key
    ∨ (a.expiresAt.key = b.expiresAt.key
        ∧ (a.createdAt.key < b.createdAt.key
            ∨ (a.createdAt.key = b.createdAt.key ∧ a.id ≤ b.id)))

instance : DecidableRel fifoLe := fun a b =>
  inferInstanceAs (Decidable (_ ∨ _))

instance : IsTotal CreditGrant fifoLe :=
  ⟨by intro a b; unfold fifoLe; omega⟩

instance : IsTrans CreditGrant fifoLe :=
  ⟨by intro a b c hab hbc; unfold fifoLe at *; omega⟩

/-- `ORDER BY created_at ASC, id ASC` (oldest first). -/
def createdLe (a b : CreditGrant) : Prop :=
  a.createdAt.key < b.createdAt.key ∨ (a.createdAt.key = b.createdAt.key ∧ a.id ≤ b.id)

instance : DecidableRel createdLe := fun a b =>
  inferInstanceAs (Decidable (_ ∨ _))

instance : IsTotal CreditGrant createdLe :=
  ⟨by intro a b; unfold createdLe; omega⟩

instance : IsTrans CreditGrant createdLe :=
  ⟨by intro a b c hab hbc; unfold createdLe at *; omega⟩

/-- `getActiveGrants`: active grants of the partition in FIFO order
(`FOR UPDATE` row locks are implicit in the sequential state model). -/
def getActiveGrants (l : Ledger) (now : GoTime) (license asset : String) : List CreditGrant :=
  List.insertionSort fifoLe (l.grants.filter (isActiveGrant now license asset))

/-- `getFailedGrants`: failed grants with outstanding debt, oldest first. -/
def getFailedGrants (l : Ledger) (license asset : String) : List CreditGrant :=
  List.insertionSort createdLe (l.grants.filter (isFailedWithDebt license asset))

/-- `getOutstandingDebt`: `SUM(initial_amount - remaining_amount)` over
failed grants with `remaining_amount < initial_amount`. -/
def getOutstandingDebt (l : Ledger) (license asset : String) : Int :=
  ((l.grants.filter (isFailedWithDebt license asset)).map
    (fun g => g.initialAmount - g.remainingAmount)).sum

/-- `calculateBalance`: `SUM(remaining_amount)` over confirmed/pending,
unexpired grants with `remaining_amount > 0`. -/
def calculateBalance (l : Ledger) (now : GoTime) (license asset : String) : Int :=
  ((l.grants.filter (isActiveGrant now license asset)).map
    (fun g => g.remainingAmount)).sum

/-- The pending-grant lookup of `confirmGrantInternal`: oldest pending grant
of the partition with the given `tx_hash`. -/
def findOldestPending (l : Ledger) (license asset txHash : String) : Option CreditGrant :=
  (List.insertionSort createdLe
    (l.grants.filter (fun g =>
      decide (g.txHash = txHash) && matchesPart license asset g
        && decide (g.status = GrantStatus.pending)))).head?

/-- Same composite primary key `(app_name, reference_id, operation_type)`. -/
def sameOpKey (a b : CreditOperation) : Bool :=
  decide (a.appName = b.appName) && decide (a.referenceID = b.referenceID)
    && decide (a.operationType = b.operationType)

/-- Whether an operation row with the given idempotency key exists. -/
def hasOpKey (l : Ledger) (app ref : String) (ty : OperationType) : Bool :=
  l.operations.any (fun o =>
    decide (o.appName = app) && decide (o.referenceID = ref) && decide (o.operationType = ty))

/-- `operation.Insert`: fails (duplicate key, Postgres 23505) when a row with
the same `(app_name, reference_id, operation_type)` exists. -/
def insertOperation (l : Ledger) (op : CreditOperation) : Option Ledger :=
  if l.operations.any (fun o => sameOpKey o op) then none
  else some { l with operations := l.operations ++ [op] }

/-- `grant.Insert`: fails on the partial unique index
`unique_confirmed_grants ON (tx_hash, log_index) WHERE log_index IS NOT NULL`. -/
def insertGrantRow (l : Ledger) (g : CreditGrant) : Option Ledger :=
  if g.logIndex.isSome
      && l.grants.any (fun h =>
        decide (h.txHash = g.txHash) && decide (h.logIndex = g.logIndex) && h.logIndex.isSome) then
    none
  else
    some { l with grants := l.grants ++ [g], nextGrantID := l.nextGrantID + 1 }

/-- `grant.Update(...)`: write the (whitelisted columns of the) in-memory
struct back to the row with its id.  The loaded struct was read from that
row under a `FOR UPDATE` lock, so replacing the whole row is the effect of
the whitelisted update. -/
def updateGrantRow (l : Ledger) (g : CreditGrant) : Ledger :=
  { l with grants := l.grants.map (fun h => if h.id = g.id then g else h) }

/-- `opGrant.Insert` (fresh UUID surrogate key, never conflicts). -/
def addOpGrant (l : Ledger) (og : CreditOperationGrant) : Ledger :=
  { l with opGrants := l.opGrants ++ [og] }

/-! ## `deductCreditsInternal` -/

/-- The FIFO consumption loop of `deductCreditsInternal` (lines 114-148):
walk the loaded active grants, breaking once `remainingToDeduct <= 0`; per
grant take `min(remainingToDeduct, grant.RemainingAmount)`, update the grant
row and insert a `CreditOperationGrant` with `AmountUsed = -take`. -/
def deductLoop (l : Ledger) (now : GoTime) (op : CreditOperation) :
    List CreditGrant → Int → Ledger
  | [], _ => l
  | g :: rest, remainingToDeduct =>
    if remainingToDeduct ≤ 0 then l
    else
      let takeAmt := min remainingToDeduct g.remainingAmount
      let g' := { g with remainingAmount := g.remainingAmount - takeAmt, updatedAt := now }
      let l1 := updateGrantRow l g'
      let og : CreditOperationGrant :=
        { appName := op.appName, referenceID := op.referenceID,
          operationType := op.operationType, grantID := g.id,
          amountUsed := -takeAmt, createdAt := now }
      deductLoop (addOpGrant l1 og) now op rest (remainingToDeduct - takeAmt)

/-- `deductCreditsInternal`: validate the amount, refuse on outstanding debt,
check the active balance, insert the `deduction` operation (classifying a
duplicate key as "operation already exists"), then consume grants FIFO.
An error result models the transaction rolling back: the caller observes the
unchanged pre-state. -/
def deductCreditsInternal (l : Ledger) (now : GoTime) (licenseID assetDID : String)
    (deductionAmount : Nat) (appName referenceID : String) :
    Except RepoError (CreditOperation × Ledger) :=
  if maxInt64N < deductionAmount then .error .amountTooLarge
  else
    let amount : Int := deductionAmount
    let debt := getOutstandingDebt l licenseID assetDID
    if 0 < debt then .error (.outstandingDebt debt)
    else
      let grants := getActiveGrants l now licenseID assetDID
      let currentBalance := (grants.map (fun g => g.remainingAmount)).sum
      if currentBalance < amount then .error (.insufficientCredits currentBalance amount)
      else
        let operation : CreditOperation :=
          { appName := appName, referenceID := referenceID,
            operationType := .deduction, licenseID := licenseID, assetDID := assetDID,
            totalAmount := amount, createdAt := now }
        match insertOperation l operation with
        | none => .error .operationAlreadyExists
        | some l1 => .ok (operation, deductLoop l1 now operation grants amount)

/-! ## `getBalanceInternal` -/

/-- `getBalanceInternal` (lines 446-472): read the outstanding debt; if
`debt < 0` return `-debt`; otherwise return `calculateBalance`. -/
def getBalanceInternal (l : Ledger) (now : GoTime) (licenseID assetDID : String) : Int :=
  let debt := getOutstandingDebt l licenseID assetDID
  if debt < 0 then -debt
  else calculateBalance l now licenseID assetDID

/-! ## `settleDebt` -/

/-- The inner loop of `settleDebt` (lines 607-641): walk the loaded active
grants while `remainingToSettle > 0`, debiting
`min(remainingToSettle, activeGrant.RemainingAmount)` from each (skipping
exhausted ones) and recording a positive `CreditOperationGrant` per debit.
Returns the post-state, the active-grant slice with its in-place struct
mutations (the Go slice holds pointers reused by the next outer iteration),
and the remaining amount to settle. -/
def settleFromActives (l : Ledger) (now : GoTime) (op : CreditOperation) :
    List CreditGrant → Int → Ledger × List CreditGrant × Int
  | [], remainingToSettle => (l, [], remainingToSettle)
  | a :: rest, remainingToSettle =>
    if remainingToSettle ≤ 0 then (l, a :: rest, remainingToSettle)
    else
      let availableAmount := min remainingToSettle a.remainingAmount
      if availableAmount ≤ 0 then
        let r := settleFromActives l now op rest remainingToSettle
        (r.1, a :: r.2.1, r.2.2)
      else
        let a' := { a with remainingAmount := a.remainingAmount - availableAmount,
                           updatedAt := now }
        let l1 := updateGrantRow l a'
        let og : CreditOperationGrant :=
          { appName := op.appName, referenceID := op.referenceID,
            operationType := op.operationType, grantID := a.id,
            amountUsed := availableAmount, createdAt := now }
        let r := settleFromActives (addOpGrant l1 og) now op rest
          (remainingToSettle - availableAmount)
        (r.1, a' :: r.2.1, r.2.2)

/-- The outer loop of `settleDebt` (lines 599-676): for each failed grant
with debt (oldest first) try to settle from the active grants; if nothing
could be settled, stop; otherwise credit the failed grant (with the Go
int64-wraparound check on `RemainingAmount + amountSettled`, modelled as a
`maxInt64` bound since both operands are nonnegative) and record a positive
`CreditOperationGrant` for it. -/
def settleFailedLoop (now : GoTime) (op : CreditOperation) :
    Ledger → List CreditGrant → List CreditGrant → Except RepoError Ledger
  | l, _, [] => .ok l
  | l, actives, f :: rest =>
    let grantDebt := f.initialAmount - f.remainingAmount
    if grantDebt ≤ 0 then settleFailedLoop now op l actives rest
    else
      let r := settleFromActives l now op actives grantDebt
      if grantDebt ≤ r.2.2 then .ok r.1
      else
        let amountSettled := grantDebt - r.2.2
        let newAmount := f.remainingAmount + amountSettled
        if maxInt64 < newAmount then .error .arithmeticOverflow
        else
          let f' := { f with remainingAmount := newAmount, updatedAt := now }
          let l2 := updateGrantRow r.1 f'
          let og : CreditOperationGrant :=
            { appName := op.appName, referenceID := op.referenceID,
              operationType := op.operationType, grantID := f.id,
              amountUsed := amountSettled, createdAt := now }
          settleFailedLoop now op (addOpGrant l2 og) r.2.1 rest

/-- `settleDebt` (lines 554-679): no-op unless both the outstanding debt and
the active balance are nonzero; otherwise insert one `debt_settlement`
operation with `total_amount = min(debt, balance)` and run the settlement
walk over the failed (oldest-first) and active (FIFO) grants.
In Go the debt query runs against `r.db` rather than the transaction; for
the `CreateGrant`/`ConfirmGrant` callers embedded here the transaction has
not modified any failed grant when `settleDebt` runs, so reading the current
state is the same value. -/
def settleDebt (l : Ledger) (now : GoTime) (license asset appName referenceID : String) :
    Except RepoError Ledger :=
  let debt := getOutstandingDebt l license asset
  if debt = 0 then .ok l
  else
    let balance := calculateBalance l now license asset
    if balance = 0 then .ok l
    else
      let operation : CreditOperation :=
        { appName := appName, referenceID := referenceID,
          operationType := .debtSettlement, licenseID := license, assetDID := asset,
          totalAmount := min debt balance, createdAt := now }
      match insertOperation l operation with
      | none => .error .createOperationFailed
      | some l1 =>
        settleFailedLoop now operation l1 (getActiveGrants l1 now license asset)
          (getFailedGrants l1 license asset)

/-! ## `createGrantInternal` -/

/-- String form of a grant's surrogate id (Go: the UUID the database
generated), used as `reference_id` of grant operations. -/
def grantRef (id : Nat) : String := toString id

/-- `createGrantInternal` (lines 264-331): validate the amount, insert a
pending grant with `expires_at = getExpirationDate mintTime`, insert the
`grant_purchase` operation (app `credit_tracker`, reference the grant id)
and its operation-grant row, then settle any debt. -/
def createGrantInternal (l : Ledger) (now : GoTime) (licenseID assetDID : String)
    (creditAmount : Nat) (txHash : String) (mintTime : GoTime) :
    Except RepoError (CreditOperation × Ledger) :=
  if creditAmount = 0 then .error .invalidAmount
  else if maxInt64N < creditAmount then .error .amountTooLarge
  else
    let amount : Int := creditAmount
    let grant : CreditGrant :=
      { id := l.nextGrantID, licenseID := licenseID, assetDID := assetDID,
        initialAmount := amount, remainingAmount := amount,
        status := .pending, txHash := txHash, logIndex := none,
        expiresAt := getExpirationDate mintTime, createdAt := now, updatedAt := now }
    match insertGrantRow l grant with
    | none => .error .createGrantFailed
    | some l1 =>
      let operation : CreditOperation :=
        { appName := "credit_tracker", referenceID := grantRef grant.id,
          operationType := .grantPurchase, licenseID := licenseID, assetDID := assetDID,
          totalAmount := amount, createdAt := now }
      match insertOperation l1 operation with
      | none => .error .createOperationFailed
      | some l2 =>
        let og : CreditOperationGrant :=
          { appName := operation.appName, referenceID := operation.referenceID,
            operationType := operation.operationType, grantID := grant.id,
            amountUsed := amount, createdAt := now }
        match settleDebt (addOpGrant l2 og) now licenseID assetDID
            "credit_tracker" (grantRef grant.id) with
        | .error e => .error e
        | .ok l3 => .ok (operation, l3)

/-! ## `confirmGrantInternal` -/

/-- `confirmGrantInternal` (lines 344-432): validate the amount; if an
oldest pending grant with the tx hash exists, set only its `log_index`,
`status` and `updated_at`; otherwise insert a fresh confirmed grant with
`expires_at = getExpirationDate mintTime`.  Then insert the `grant_confirm`
operation (any insert failure, a duplicate key included, is returned as the
generic "failed to create operation record") and its operation-grant row,
and settle any debt. -/
def confirmGrantInternal (l : Ledger) (now : GoTime) (licenseID assetDID : String)
    (txHash : String) (logIndex : Int) (creditAmount : Nat) (mintTime : GoTime) :
    Except RepoError (CreditOperation × Ledger) :=
  if creditAmount = 0 then .error .invalidAmount
  else if maxInt64N < creditAmount then .error .amountTooLarge
  else
    let amount : Int := creditAmount
    let found :=
      match findOldestPending l licenseID assetDID txHash with
      | some g =>
        let g' := { g with logIndex := some logIndex, status := GrantStatus.confirmed,
                           updatedAt := now }
        some (g', updateGrantRow l g')
      | none =>
        let g : CreditGrant :=
          { id := l.nextGrantID, licenseID := licenseID, assetDID := assetDID,
            initialAmount := amount, remainingAmount := amount,
            status := .confirmed, txHash := txHash, logIndex := some logIndex,
            expiresAt := getExpirationDate mintTime, createdAt := now, updatedAt := now }
        (insertGrantRow l g).map (fun l1 => (g, l1))
    match found with
    | none => .error .createGrantFailed
    | some (grant, l1) =>
      let operation : CreditOperation :=
        { appName := "credit_tracker", referenceID := grantRef grant.id,
          operationType := .grantConfirm, licenseID := licenseID, assetDID := assetDID,
          totalAmount := amount, createdAt := now }
      match insertOperation l1 operation with
      | none => .error .createOperationFailed
      | some l2 =>
        let og : CreditOperationGrant :=
          { appName := operation.appName, referenceID := operation.referenceID,
            operationType := operation.operationType, grantID := grant.id,
            amountUsed := amount, createdAt := now }
        match settleDebt (addOpGrant l2 og) now licenseID assetDID
            "credit_tracker" (grantRef grant.id) with
        | .error e => .error e
        | .ok l3 => .ok (operation, l3)

/-! ## The burn orchestrator (`pkg/creditservice/credit_service.go`)

`CreditTrackerService.DeductCredits` calls the repository behind the
`Repository` interface and the contract processor behind the
`ContractProcessor` interface; both are modelled as oracles giving the
result of each successive call.  A repository deduct result is `none` for
success or `some e` for an error, with `SvcErr.insufficient` the case
`errors.Is(err, creditrepo.InsufficientCreditsErr)` matches. -/

/-- Abstraction of the errors `repository.DeductCredits` can return, as far
as the service distinguishes them. -/
inductive SvcErr where
  /-- an error matching `creditrepo.InsufficientCreditsErr` -/
  | insufficient
  /-- any other error -/
  | other
deriving DecidableEq

/-- The caller-visible outcome of `CreditTrackerService.DeductCredits`. -/
inductive SvcOutcome where
  /-- the deduction succeeded -/
  | ok
  /-- "Failed to add credits after burn" -/
  | failedBurn
  /-- "Failed to deduct credits after burn" -/
  | failedDeductAfterBurn
  /-- "Failed to deduct credits" (first deduct failed with a non-insufficient error) -/
  | failedDeduct
deriving DecidableEq

/-- `creditsFromBurn`: the grant amount every burn mints. -/
def creditsFromBurn : Nat := 50000

/-- The `for errors.Is(err, creditrepo.InsufficientCreditsErr)` loop of
`CreditTrackerService.DeductCredits`, translated with fuel so that the Go
loop's syntactic unboundedness is preserved.  `deductRes n` is the result of
the (n+1)-th `repository.DeductCredits` call; `burnRes n` tells whether the
(n+1)-th `addBurnCredits` (a `contractProcessor.CreateGrant` of
`creditsFromBurn` credits) succeeds.  The result carries the outcome, the
number of burns initiated and the number of repository deduct calls made;
`none` means the fuel ran out before the loop exited. -/
def svcDeductLoop (deductRes : Nat → Option SvcErr) (burnRes : Nat → Bool) :
    Nat → Option SvcErr → Nat → Nat → Option (SvcOutcome × Nat × Nat)
  | 0, _, _, _ => none
  | fuel + 1, err, deducts, burns =>
    match err with
    | some .insufficient =>
      if burnRes burns then
        match deductRes deducts with
        | some _ => some (.failedDeductAfterBurn, deducts + 1, burns + 1)
        | none => svcDeductLoop deductRes burnRes fuel none (deducts + 1) (burns + 1)
      else some (.failedBurn, deducts, burns + 1)
    | some .other => some (.failedDeduct, deducts, burns)
    | none => some (.ok, deducts, burns)

/-- `CreditTrackerService.DeductCredits` (lines 66-92): one initial
repository deduct, then the burn-and-retry loop. -/
def svcDeductCredits (deductRes : Nat → Option SvcErr) (burnRes : Nat → Bool)
    (fuel : Nat) : Option (SvcOutcome × Nat × Nat) :=
  svcDeductLoop deductRes burnRes fuel (deductRes 0) 1 0

/-! ## Spec-side definitions (for refinement statements)

The following definitions are written from the specification's words, to be
compared with the loops embedded from the source. -/

/-- The FIFO walk as the spec's Deduct step 5 words it: "Walk `grants` in
FIFO order.  For each grant while `remaining_to_deduct > 0`:
`take = min(remaining_to_deduct, g.remaining_amount)`"; returns the
(grant, take) list. -/
def specFifoTakes : List CreditGrant → Int → List (CreditGrant × Int)
  | [], _ => []
  | g :: rest, amt =>
    if amt ≤ 0 then []
    else
      let take := min amt g.remainingAmount
      (g, take) :: specFifoTakes rest (amt - take)

/-- Apply a list of takes to the grant table: each taken grant's row receives
`remaining_amount -= take` (and the `updated_at` touch). -/
def applyTakes (now : GoTime) (gs : List CreditGrant)
    (takes : List (CreditGrant × Int)) : List CreditGrant :=
  takes.foldl
    (fun acc gt =>
      acc.map (fun h =>
        if h.id = gt.1.id then
          { gt.1 with remainingAmount := gt.1.remainingAmount - gt.2, updatedAt := now }
        else h))
    gs

/-- The operation-grant rows the spec's Deduct step 5 words: one row per
taken grant with `amount_used = -take`. -/
def takeOpGrants (op : CreditOperation) (now : GoTime)
    (takes : List (CreditGrant × Int)) : List CreditOperationGrant :=
  takes.map (fun gt =>
    { appName := op.appName, referenceID := op.referenceID,
      operationType := op.operationType, grantID := gt.1.id,
      amountUsed := -gt.2, createdAt := now })

/-! ## Concrete example states (from the spec's end-to-end scenarios) -/

def tZero : GoTime := ⟨2025, 1, 1, 0⟩
def tExp1 : GoTime := ⟨2025, 2, 1, 0⟩
def tExp2 : GoTime := ⟨2025, 3, 1, 0⟩
def tNow : GoTime := ⟨2025, 1, 15, 0⟩

/-- A grant row of the `("L", "A")` partition created at `tZero`. -/
def mkGrant (id : Nat) (init rem : Int) (st : GrantStatus) (tx : String)
    (li : Option Int) (expiry : GoTime) : CreditGrant :=
  { id := id, licenseID := "L", assetDID := "A", initialAmount := init,
    remainingAmount := rem, status := st, txHash := tx, logIndex := li,
    expiresAt := expiry, createdAt := tZero, updatedAt := tZero }

/-- Scenario S4: a single failed grant `initial = 50000, remaining = 49500`
(outstanding debt 500). -/
def debtLedger : Ledger :=
  ⟨[mkGrant 1 50000 49500 .failed "0xf" (some 1) tExp1], [], [], 2⟩

/-- Scenario S3: a single confirmed grant with `remaining_amount = 0`. -/
def zeroBalLedger : Ledger :=
  ⟨[mkGrant 1 50000 0 .confirmed "0x2" (some 1) tExp1], [], [], 2⟩

/-- Scenario S2: confirmed grants `g1 remaining=5` expiring `tExp1` and
`g2 remaining=50000` expiring `tExp2 > tExp1`. -/
def fifoLedger : Ledger :=
  ⟨[mkGrant 1 50000 5 .confirmed "0x1" (some 1) tExp1,
    mkGrant 2 50000 50000 .confirmed "0x2" (some 2) tExp2], [], [], 3⟩

/-! ## Basic lemmas -/

theorem isFailedWithDebt_lt {license asset : String} {g : CreditGrant}
    (h : isFailedWithDebt license asset g = true) :
    g.remainingAmount < g.initialAmount := by
  simp only [isFailedWithDebt, Bool.and_eq_true, decide_eq_true_eq] at h
  exact h.2

theorem getOutstandingDebt_nonneg (l : Ledger) (license asset : String) :
    0 ≤ getOutstandingDebt l license asset := by
  apply List.sum_nonneg
  intro x hx
  rw [List.mem_map] at hx
  obtain ⟨g, hg, rfl⟩ := hx
  rw [List.mem_filter] at hg
  have := isFailedWithDebt_lt hg.2
  omega

/-- A strictly positive debt witness: any failed-with-debt row forces
`getOutstandingDebt > 0`. -/
theorem getOutstandingDebt_pos {l : Ledger} {license asset : String} {g : CreditGrant}
    (hmem : g ∈ l.grants) (hg : isFailedWithDebt license asset g = true) :
    0 < getOutstandingDebt l license asset := by
  have hterm : g.initialAmount - g.remainingAmount
      ∈ (l.grants.filter (isFailedWithDebt license asset)).map
        (fun g => g.initialAmount - g.remainingAmount) := by
    exact List.mem_map_of_mem _ (List.mem_filter.mpr ⟨hmem, hg⟩)
  have hle := List.single_le_sum (l := (l.grants.filter (isFailedWithDebt license asset)).map
      (fun g => g.initialAmount - g.remainingAmount))
    (fun x hx => by
      rw [List.mem_map] at hx
      obtain ⟨h, hh, rfl⟩ := hx
      rw [List.mem_filter] at hh
      have := isFailedWithDebt_lt hh.2
      omega)
    _ hterm
  have := isFailedWithDebt_lt hg
  unfold getOutstandingDebt
  omega

/-- Zero outstanding debt means no row satisfies the failed-with-debt
predicate at all. -/
theorem no_failed_of_debt_zero {l : Ledger} {license asset : String}
    (h : getOutstandingDebt l license asset = 0) :
    ∀ g ∈ l.grants, isFailedWithDebt license asset g = false := by
  intro g hg
  by_contra hne
  have : isFailedWithDebt license asset g = true := by
    cases hfd : isFailedWithDebt license asset g
    · exact absurd hfd hne
    · rfl
  have := getOutstandingDebt_pos hg this
  omega

/-- The active-grant balance is a sum of positive rows. -/
theorem activeSum_nonneg (l : Ledger) (now : GoTime) (license asset : String) :
    0 ≤ ((getActiveGrants l now license asset).map (fun g => g.remainingAmount)).sum := by
  apply List.sum_nonneg
  intro x hx
  rw [List.mem_map] at hx
  obtain ⟨g, hg, rfl⟩ := hx
  have hg' : g ∈ l.grants.filter (isActiveGrant now license asset) :=
    (List.perm_insertionSort fifoLe _).mem_iff.mp hg
  rw [List.mem_filter] at hg'
  have := hg'.2
  simp only [isActiveGrant, Bool.and_eq_true, decide_eq_true_eq] at this
  omega

/-- `insertOperation` succeeds exactly when no row with the key exists, and
then appends the row. -/
theorem insertOperation_of_fresh (l : Ledger) (op : CreditOperation)
    (h : hasOpKey l op.appName op.referenceID op.operationType = false) :
    insertOperation l op = some { l with operations := l.operations ++ [op] } := by
  unfold insertOperation
  rw [if_neg]
  rw [show (l.operations.any fun o => sameOpKey o op)
      = hasOpKey l op.appName op.referenceID op.operationType from rfl, h]
  exact Bool.false_ne_true

theorem insertOperation_of_dup (l : Ledger) (op : CreditOperation)
    (h : hasOpKey l op.appName op.referenceID op.operationType = true) :
    insertOperation l op = none := by
  unfold insertOperation
  rw [if_pos]
  rw [show (l.operations.any fun o => sameOpKey o op)
      = hasOpKey l op.appName op.referenceID op.operationType from rfl, h]

/-! ## Claim C1 -/

/-- **C1** (code bug).  The claim — backed by the spec and by
`GetBalance`'s own doc comment ("if the debt is positive, return the debt
[negated]") — says a partition with positive outstanding debt gets `-debt`.
The code tests `debt < 0`, which `getOutstandingDebt` can never satisfy
(first conjunct uses `getOutstandingDebt_nonneg`), so `getBalanceInternal`
always falls through to the active-grant sum: on the S4 state with debt 500
it returns `0`, not `-500`. -/
theorem C1_getBalance_ignores_debt :
    (∀ (l : Ledger) (now : GoTime) (license asset : String),
        getBalanceInternal l now license asset = calculateBalance l now license asset)
      ∧ getOutstandingDebt debtLedger "L" "A" = 500
      ∧ getBalanceInternal debtLedger tNow "L" "A" = 0
      ∧ (0 : Int) ≠ -500 := by
  refine ⟨?_, by decide, by decide, by decide⟩
  intro l now license asset
  have h := getOutstandingDebt_nonneg l license asset
  unfold getBalanceInternal
  rw [if_neg (by omega)]

/-! ## Claim C5 -/

/-- **C5 counterexample.**  The uint64-range check precedes the debt check:
a `Deduct` of `2^63` on the indebted S4 partition fails with the
"amount too large" error, not with `OutstandingDebt(500)` as the claim
demands for *every* deduct call on an indebted partition. -/
theorem C5_amount_check_precedes_debt :
    deductCreditsInternal debtLedger tNow "L" "A" 9223372036854775808 "telem" "r4"
        = .error .amountTooLarge
      ∧ getOutstandingDebt debtLedger "L" "A" = 500
      ∧ RepoError.amountTooLarge ≠ RepoError.outstandingDebt 500 := by
  exact ⟨rfl, by decide, by decide⟩

/-- **C5 (amended).**  For every `Deduct` call whose amount fits in int64,
positive outstanding debt makes the call fail with `OutstandingDebt`
carrying that debt; the error is raised before any row is inserted or
updated, and the error result models the rolled-back transaction, so the
ledger state is unchanged. -/
theorem C5_outstanding_debt_blocks (l : Ledger) (now : GoTime)
    (license asset : String) (deductionAmount : Nat) (appName referenceID : String)
    (hsize : deductionAmount ≤ maxInt64N)
    (hdebt : 0 < getOutstandingDebt l license asset) :
    deductCreditsInternal l now license asset deductionAmount appName referenceID
      = .error (.outstandingDebt (getOutstandingDebt l license asset)) := by
  unfold deductCreditsInternal
  rw [if_neg (by omega)]
  simp only
  rw [if_pos hdebt]

theorem C5_outstanding_debt_blocks_witness :
    1 ≤ maxInt64N ∧ 0 < getOutstandingDebt debtLedger "L" "A"
      ∧ deductCreditsInternal debtLedger tNow "L" "A" 1 "telem" "r4"
        = .error (.outstandingDebt (getOutstandingDebt debtLedger "L" "A")) :=
  ⟨by decide, by decide,
    C5_outstanding_debt_blocks debtLedger tNow "L" "A" 1 "telem" "r4"
      (by decide) (by decide)⟩

/-! ## Claim C6 -/

/-- **C6 counterexample.**  The debt check precedes the balance check: on
the indebted S4 partition the available active balance is `0 < 1` and yet
`Deduct(…, 1, …)` fails with `OutstandingDebt(500)`, not with
`InsufficientCredits(0, 1)` as the claim demands for *every* call with
`available < amount`. -/
theorem C6_debt_check_precedes_balance :
    deductCreditsInternal debtLedger tNow "L" "A" 1 "telem" "r4"
        = .error (.outstandingDebt 500)
      ∧ ((getActiveGrants debtLedger tNow "L" "A").map
          (fun g => g.remainingAmount)).sum = 0
      ∧ (0 : Int) < 1
      ∧ RepoError.outstandingDebt 500 ≠ RepoError.insufficientCredits 0 1 := by
  exact ⟨rfl, by decide, by decide, by decide⟩

/-- **C6 (amended).**  For every `Deduct` call whose amount fits in int64 on
a partition with no outstanding debt, a summed active `remaining_amount`
strictly below the requested amount makes the call fail with
`InsufficientCredits(available, amount)`; the error is raised before the
operation insert, and the error result models the rolled-back transaction,
so no operation row is created and no grant modified. -/
theorem C6_insufficient_credits (l : Ledger) (now : GoTime)
    (license asset : String) (deductionAmount : Nat) (appName referenceID : String)
    (hsize : deductionAmount ≤ maxInt64N)
    (hdebt : getOutstandingDebt l license asset = 0)
    (havail : ((getActiveGrants l now license asset).map
        (fun g => g.remainingAmount)).sum < (deductionAmount : Int)) :
    deductCreditsInternal l now license asset deductionAmount appName referenceID
      = .error (.insufficientCredits
          ((getActiveGrants l now license asset).map (fun g => g.remainingAmount)).sum
          (deductionAmount : Int)) := by
  unfold deductCreditsInternal
  rw [if_neg (by omega)]
  simp only
  rw [hdebt, if_neg (by omega), if_pos havail]

theorem C6_insufficient_credits_witness :
    1 ≤ maxInt64N ∧ getOutstandingDebt zeroBalLedger "L" "A" = 0
      ∧ ((getActiveGrants zeroBalLedger tNow "L" "A").map
          (fun g => g.remainingAmount)).sum < (1 : Int)
      ∧ deductCreditsInternal zeroBalLedger tNow "L" "A" 1 "telem" "r3"
        = .error (.insufficientCredits
            ((getActiveGrants zeroBalLedger tNow "L" "A").map
              (fun g => g.remainingAmount)).sum (1 : Int)) :=
  ⟨by decide, by decide, by decide,
    C6_insufficient_credits zeroBalLedger tNow "L" "A" 1 "telem" "r3"
      (by decide) (by decide) (by decide)⟩

/-! ## Claim C7 -/

theorem svcDeductLoop_exit (deductRes : Nat → Option SvcErr) (burnRes : Nat → Bool)
    (fuel deducts burns : Nat) :
    svcDeductLoop deductRes burnRes (fuel + 1) none deducts burns
      = some (.ok, deducts, burns) := rfl

/-- One unfolding of the burn-and-retry loop at an insufficient-credits
error. -/
theorem svcDeductLoop_insufficient (deductRes : Nat → Option SvcErr) (burnRes : Nat → Bool)
    (fuel deducts burns : Nat) :
    svcDeductLoop deductRes burnRes (fuel + 1) (some .insufficient) deducts burns
      = (if burnRes burns then
          match deductRes deducts with
          | some _ => some (.failedDeductAfterBurn, deducts + 1, burns + 1)
          | none => svcDeductLoop deductRes burnRes fuel none (deducts + 1) (burns + 1)
        else some (.failedBurn, deducts, burns + 1)) := rfl

theorem svcDeductLoop_bounds (deductRes : Nat → Option SvcErr) (burnRes : Nat → Bool)
    (fuel : Nat) (err : Option SvcErr) (deducts burns : Nat)
    (out : SvcOutcome) (d b : Nat)
    (h : svcDeductLoop deductRes burnRes fuel err deducts burns = some (out, d, b)) :
    b ≤ burns + 1 ∧ d ≤ deducts + 1 := by
  match fuel, err with
  | 0, _ => exact absurd h (by simp [svcDeductLoop])
  | fuel + 1, none =>
    rw [svcDeductLoop_exit] at h
    simp only [Option.some.injEq, Prod.mk.injEq] at h
    omega
  | fuel + 1, some .other =>
    have h' : (some (SvcOutcome.failedDeduct, deducts, burns) :
        Option (SvcOutcome × Nat × Nat)) = some (out, d, b) := h
    simp only [Option.some.injEq, Prod.mk.injEq] at h'
    omega
  | fuel + 1, some .insufficient =>
    rw [svcDeductLoop_insufficient] at h
    by_cases hburn : burnRes burns
    · rw [if_pos hburn] at h
      cases hretry : deductRes deducts with
      | some e =>
        rw [hretry] at h
        simp only [Option.some.injEq, Prod.mk.injEq] at h
        omega
      | none =>
        rw [hretry] at h
        match fuel with
        | 0 => exact absurd h (by simp [svcDeductLoop])
        | fuel + 1 =>
          rw [svcDeductLoop_exit] at h
          simp only [Option.some.injEq, Prod.mk.injEq] at h
          omega
    · rw [if_neg hburn] at h
      simp only [Option.some.injEq, Prod.mk.injEq] at h
      omega

/-- **C7.**  The burn orchestrator of `CreditTrackerService.DeductCredits`
is bounded: whatever results the repository and contract-processor oracles
return, a completed run initiates at most one burn and makes at most two
repository deduct calls (first conjunct); and when the first deduct reports
insufficient credits, the burn succeeds and the retried deduct reports
insufficient credits again, the call returns the fatal
"failed to deduct credits after burn" outcome after exactly one burn and two
deduct calls — the loop body never runs a second time (second conjunct). -/
theorem C7_burn_retry_bounded :
    (∀ (deductRes : Nat → Option SvcErr) (burnRes : Nat → Bool) (fuel : Nat)
        (out : SvcOutcome) (deducts burns : Nat),
        svcDeductCredits deductRes burnRes fuel = some (out, deducts, burns) →
        burns ≤ 1 ∧ deducts ≤ 2)
      ∧ (∀ (deductRes : Nat → Option SvcErr) (burnRes : Nat → Bool) (fuel : Nat),
          1 ≤ fuel → deductRes 0 = some .insufficient → burnRes 0 = true →
          deductRes 1 = some .insufficient →
          svcDeductCredits deductRes burnRes fuel
            = some (.failedDeductAfterBurn, 2, 1)) := by
  constructor
  · intro deductRes burnRes fuel out deducts burns h
    have := svcDeductLoop_bounds deductRes burnRes fuel (deductRes 0) 1 0 out deducts burns h
    omega
  · intro deductRes burnRes fuel hfuel h0 hburn h1
    match fuel, hfuel with
    | fuel + 1, _ =>
      unfold svcDeductCredits
      rw [h0, svcDeductLoop_insufficient, if_pos hburn, h1]

theorem C7_burn_retry_bounded_witness :
    1 ≤ 5
      ∧ (fun _ : Nat => some SvcErr.insufficient) 0 = some SvcErr.insufficient
      ∧ (fun _ : Nat => true) 0 = true
      ∧ (fun _ : Nat => some SvcErr.insufficient) 1 = some SvcErr.insufficient
      ∧ svcDeductCredits (fun _ => some .insufficient) (fun _ => true) 5
          = some (.failedDeductAfterBurn, 2, 1) :=
  ⟨by decide, rfl, rfl, rfl,
    C7_burn_retry_bounded.2 (fun _ => some .insufficient) (fun _ => true) 5
      (by decide) rfl rfl rfl⟩

/-! ## Refinement of the deduction loop -/

theorem specFifoTakes_nonpos {gs : List CreditGrant} {amt : Int} (h : amt ≤ 0) :
    specFifoTakes gs amt = [] := by
  cases gs with
  | nil => rfl
  | cons g rest => rw [specFifoTakes, if_pos h]

/-- The state-threading FIFO loop of `deductCreditsInternal` computes
exactly the spec-side walk: the takes are determined by the loaded grant
list alone, each row update subtracts its take, and one negative
operation-grant row is appended per take, in walk order. -/
theorem deductLoop_eq (now : GoTime) (op : CreditOperation) :
    ∀ (gs : List CreditGrant) (l : Ledger) (amt : Int),
      deductLoop l now op gs amt
        = { l with grants := applyTakes now l.grants (specFifoTakes gs amt),
                   opGrants := l.opGrants ++ takeOpGrants op now (specFifoTakes gs amt) } := by
  intro gs
  induction gs with
  | nil =>
    intro l amt
    simp [deductLoop, specFifoTakes, applyTakes, takeOpGrants]
  | cons g rest ih =>
    intro l amt
    by_cases hle : amt ≤ 0
    · rw [deductLoop, if_pos hle, specFifoTakes, if_pos hle]
      simp [applyTakes, takeOpGrants]
    · rw [deductLoop, if_neg hle, specFifoTakes, if_neg hle]
      simp only
      rw [ih]
      simp [applyTakes, takeOpGrants, updateGrantRow, addOpGrant]

/-- Successful deduction, characterized by the spec-side FIFO walk. -/
theorem deduct_success (l : Ledger) (now : GoTime) (license asset : String)
    (deductionAmount : Nat) (appName referenceID : String)
    (hsize : deductionAmount ≤ maxInt64N)
    (hdebt : getOutstandingDebt l license asset = 0)
    (hfresh : hasOpKey l appName referenceID .deduction = false)
    (havail : (deductionAmount : Int) ≤ ((getActiveGrants l now license asset).map
        (fun g => g.remainingAmount)).sum) :
    deductCreditsInternal l now license asset deductionAmount appName referenceID
      = .ok (⟨appName, referenceID, .deduction, license, asset, (deductionAmount : Int), now⟩,
          { l with
            operations := l.operations
              ++ [⟨appName, referenceID, .deduction, license, asset, (deductionAmount : Int), now⟩],
            grants := applyTakes now l.grants
              (specFifoTakes (getActiveGrants l now license asset) (deductionAmount : Int)),
            opGrants := l.opGrants
              ++ takeOpGrants
                ⟨appName, referenceID, .deduction, license, asset, (deductionAmount : Int), now⟩
                now
                (specFifoTakes (getActiveGrants l now license asset) (deductionAmount : Int)) }) := by
  unfold deductCreditsInternal
  rw [if_neg (by omega)]
  simp only
  rw [hdebt, if_neg (by omega), if_neg (by omega)]
  rw [insertOperation_of_fresh l
    ⟨appName, referenceID, .deduction, license, asset, (deductionAmount : Int), now⟩
    hfresh]
  simp only
  rw [deductLoop_eq]

/-! ## Claim C2 -/

/-- The deduction operation of scenario S2. -/
def s2Op : CreditOperation := ⟨"telem", "r2", .deduction, "L", "A", 10, tNow⟩

/-- The expected post-state of scenario S2: `g1.remaining = 0`,
`g2.remaining = 49995`, and operation-grant rows `(g1, -5), (g2, -5)`. -/
def s2Post : Ledger :=
  { grants :=
      [{ mkGrant 1 50000 0 .confirmed "0x1" (some 1) tExp1 with updatedAt := tNow },
       { mkGrant 2 50000 49995 .confirmed "0x2" (some 2) tExp2 with updatedAt := tNow }],
    operations := [s2Op],
    opGrants :=
      [⟨"telem", "r2", .deduction, 1, -5, tNow⟩,
       ⟨"telem", "r2", .deduction, 2, -5, tNow⟩],
    nextGrantID := 3 }

/-- **C2.**  Deduction consumes grants in FIFO order: on every successful
call the loaded grant list is exactly the set of active grants of the
partition sorted by `(expires_at, created_at, grant_id)` ascending, and the
effect on the state is the spec-side walk (`specFifoTakes`): per grant in
that order `take = min(remaining_to_deduct, remaining_amount)` is subtracted
and an operation-grant row with `amount_used = -take` is appended, until the
remainder hits zero.  In particular (scenario S2), deducting 10 from
confirmed grants with remaining 5 (earlier expiry) and 50000 leaves them at
0 and 49995 with operation-grant rows `-5` and `-5`. -/
theorem C2_deduct_fifo :
    (∀ (l : Ledger) (now : GoTime) (license asset : String) (deductionAmount : Nat)
        (appName referenceID : String),
        deductionAmount ≤ maxInt64N →
        getOutstandingDebt l license asset = 0 →
        hasOpKey l appName referenceID .deduction = false →
        (deductionAmount : Int) ≤ ((getActiveGrants l now license asset).map
            (fun g => g.remainingAmount)).sum →
        deductCreditsInternal l now license asset deductionAmount appName referenceID
            = .ok (⟨appName, referenceID, .deduction, license, asset,
                    (deductionAmount : Int), now⟩,
                { l with
                  operations := l.operations
                    ++ [⟨appName, referenceID, .deduction, license, asset,
                        (deductionAmount : Int), now⟩],
                  grants := applyTakes now l.grants
                    (specFifoTakes (getActiveGrants l now license asset)
                      (deductionAmount : Int)),
                  opGrants := l.opGrants
                    ++ takeOpGrants
                      ⟨appName, referenceID, .deduction, license, asset,
                        (deductionAmount : Int), now⟩
                      now
                      (specFifoTakes (getActiveGrants l now license asset)
                        (deductionAmount : Int)) })
          ∧ (getActiveGrants l now license asset).Sorted fifoLe
          ∧ (∀ g : CreditGrant, g ∈ getActiveGrants l now license asset
              ↔ g ∈ l.grants ∧ isActiveGrant now license asset g = true))
      ∧ deductCreditsInternal fifoLedger tNow "L" "A" 10 "telem" "r2"
          = .ok (s2Op, s2Post) := by
  constructor
  · intro l now license asset deductionAmount appName referenceID hsize hdebt hfresh havail
    refine ⟨deduct_success l now license asset deductionAmount appName referenceID
      hsize hdebt hfresh havail, List.sorted_insertionSort fifoLe _, ?_⟩
    intro g
    unfold getActiveGrants
    rw [(List.perm_insertionSort fifoLe _).mem_iff, List.mem_filter]
  · rfl

theorem C2_deduct_fifo_witness :
    (10 ≤ maxInt64N ∧ getOutstandingDebt fifoLedger "L" "A" = 0
      ∧ hasOpKey fifoLedger "telem" "r2" .deduction = false
      ∧ ((10 : Nat) : Int) ≤ ((getActiveGrants fifoLedger tNow "L" "A").map
          (fun g => g.remainingAmount)).sum)
      ∧ deductCreditsInternal fifoLedger tNow "L" "A" 10 "telem" "r2" = .ok (s2Op, s2Post)
      ∧ (getActiveGrants fifoLedger tNow "L" "A").Sorted fifoLe
      ∧ (∀ g : CreditGrant, g ∈ getActiveGrants fifoLedger tNow "L" "A"
          ↔ g ∈ fifoLedger.grants ∧ isActiveGrant tNow "L" "A" g = true) := by
  have h := C2_deduct_fifo.1 fifoLedger tNow "L" "A" 10 "telem" "r2"
    (by decide) (by decide) (by decide) (by decide)
  exact ⟨⟨by decide, by decide, by decide, by decide⟩, h.1, h.2.1, h.2.2⟩

/-! ## Claim C10 -/

/-- **C10.**  A `Deduct` of amount 0 on a partition with no outstanding debt
is not rejected: it succeeds, appending a deduction operation with
`total_amount = 0` and no operation-grant rows, and leaves every grant
unchanged (first conjunct; the resulting state differs from the input only
in `operations`).  Amount validation rejects exactly the amounts strictly
greater than `MaxInt64`: such calls fail with the "amount too large" error
(second conjunct) and no other amount is ever rejected by that check (third
conjunct). -/
theorem C10_zero_deduction_allowed :
    (∀ (l : Ledger) (now : GoTime) (license asset appName referenceID : String),
        getOutstandingDebt l license asset = 0 →
        hasOpKey l appName referenceID .deduction = false →
        deductCreditsInternal l now license asset 0 appName referenceID
          = .ok (⟨appName, referenceID, .deduction, license, asset, 0, now⟩,
              { l with operations := l.operations
                  ++ [⟨appName, referenceID, .deduction, license, asset, 0, now⟩] }))
      ∧ (∀ (l : Ledger) (now : GoTime) (license asset : String) (amt : Nat)
          (appName referenceID : String), maxInt64N < amt →
          deductCreditsInternal l now license asset amt appName referenceID
            = .error .amountTooLarge)
      ∧ (∀ (l : Ledger) (now : GoTime) (license asset : String) (amt : Nat)
          (appName referenceID : String), amt ≤ maxInt64N →
          deductCreditsInternal l now license asset amt appName referenceID
            ≠ .error .amountTooLarge) := by
  refine ⟨?_, ?_, ?_⟩
  · intro l now license asset appName referenceID hdebt hfresh
    have h := deduct_success l now license asset 0 appName referenceID
      (Nat.zero_le _) hdebt hfresh
      (by simpa using activeSum_nonneg l now license asset)
    rw [h]
    have hz : specFifoTakes (getActiveGrants l now license asset) ((0 : Nat) : Int) = [] :=
      specFifoTakes_nonpos (by simp)
    rw [hz]
    simp [applyTakes, takeOpGrants]
  · intro l now license asset amt appName referenceID hlt
    unfold deductCreditsInternal
    rw [if_pos hlt]
  · intro l now license asset amt appName referenceID hle
    unfold deductCreditsInternal
    rw [if_neg (by omega)]
    simp only
    split
    · simp
    · split
      · simp
      · split
        · simp
        · simp

theorem C10_zero_deduction_allowed_witness :
    (getOutstandingDebt fifoLedger "L" "A" = 0
      ∧ hasOpKey fifoLedger "telem" "r0" .deduction = false)
      ∧ deductCreditsInternal fifoLedger tNow "L" "A" 0 "telem" "r0"
        = .ok (⟨"telem", "r0", .deduction, "L", "A", 0, tNow⟩,
            { fifoLedger with operations :=
                fifoLedger.operations ++ [⟨"telem", "r0", .deduction, "L", "A", 0, tNow⟩] }) :=
  ⟨⟨by decide, by decide⟩,
    C10_zero_deduction_allowed.1 fifoLedger tNow "L" "A" "telem" "r0"
      (by decide) (by decide)⟩

/-! ## Refinement of the settlement loops -/

/-- The inner settlement walk as the spec's SettleDebt step 6 words it, as a
pure function of the loaded active-grant list: returns the updated list, the
unsettled remainder, and the (grant, take) debits in walk order. -/
def specSettleTakes (now : GoTime) :
    List CreditGrant → Int → List CreditGrant × Int × List (CreditGrant × Int)
  | [], rem => ([], rem, [])
  | a :: rest, rem =>
    if rem ≤ 0 then (a :: rest, rem, [])
    else
      let avail := min rem a.remainingAmount
      if avail ≤ 0 then
        let r := specSettleTakes now rest rem
        (a :: r.1, r.2.1, r.2.2)
      else
        let a' := { a with remainingAmount := a.remainingAmount - avail, updatedAt := now }
        let r := specSettleTakes now rest (rem - avail)
        (a' :: r.1, r.2.1, (a, avail) :: r.2.2)

/-- The positive operation-grant rows of a settlement debit list. -/
def settleOpGrants (op : CreditOperation) (now : GoTime)
    (takes : List (CreditGrant × Int)) : List CreditOperationGrant :=
  takes.map (fun gt =>
    { appName := op.appName, referenceID := op.referenceID,
      operationType := op.operationType, grantID := gt.1.id,
      amountUsed := gt.2, createdAt := now })

/-- The state-threading inner settlement loop computes exactly the pure
walk: row updates per debit, positive operation-grant rows in walk order,
and the updated slice and remainder of `specSettleTakes`. -/
theorem settleFromActives_eq (now : GoTime) (op : CreditOperation) :
    ∀ (actives : List CreditGrant) (l : Ledger) (rem : Int),
      settleFromActives l now op actives rem
        = ({ l with
              grants := applyTakes now l.grants (specSettleTakes now actives rem).2.2,
              opGrants := l.opGrants
                ++ settleOpGrants op now (specSettleTakes now actives rem).2.2 },
           (specSettleTakes now actives rem).1,
           (specSettleTakes now actives rem).2.1) := by
  intro actives
  induction actives with
  | nil =>
    intro l rem
    simp [settleFromActives, specSettleTakes, applyTakes, settleOpGrants]
  | cons a rest ih =>
    intro l rem
    by_cases hle : rem ≤ 0
    · rw [settleFromActives, if_pos hle, specSettleTakes, if_pos hle]
      simp [applyTakes, settleOpGrants]
    · rw [settleFromActives, if_neg hle, specSettleTakes, if_neg hle]
      simp only
      by_cases havail : min rem a.remainingAmount ≤ 0
      · rw [if_pos havail, if_pos havail, ih]
      · rw [if_neg havail, if_neg havail, ih]
        simp [applyTakes, settleOpGrants, updateGrantRow, addOpGrant]

/-- The remainder of the pure walk stays within `[0, rem]`. -/
theorem specSettleTakes_rem_bounds (now : GoTime) :
    ∀ (actives : List CreditGrant) (rem : Int), 0 ≤ rem →
      0 ≤ (specSettleTakes now actives rem).2.1
        ∧ (specSettleTakes now actives rem).2.1 ≤ rem := by
  intro actives
  induction actives with
  | nil => intro rem h; simp [specSettleTakes]; omega
  | cons a rest ih =>
    intro rem h
    by_cases hle : rem ≤ 0
    · rw [specSettleTakes, if_pos hle]; simp; omega
    · rw [specSettleTakes, if_neg hle]
      simp only
      by_cases havail : min rem a.remainingAmount ≤ 0
      · rw [if_pos havail]; exact ih rem h
      · rw [if_neg havail]
        have := ih (rem - min rem a.remainingAmount) (by omega)
        simp only
        omega

/-- The outer settlement loop, when it returns, touches neither the
operation table nor the grant-id counter. -/
theorem settleFailedLoop_operations (now : GoTime) (op : CreditOperation) :
    ∀ (fs : List CreditGrant) (l : Ledger) (actives : List CreditGrant) (l' : Ledger),
      settleFailedLoop now op l actives fs = .ok l' →
      l'.operations = l.operations ∧ l'.nextGrantID = l.nextGrantID := by
  intro fs
  induction fs with
  | nil =>
    intro l actives l' h
    cases h
    exact ⟨rfl, rfl⟩
  | cons f rest ih =>
    intro l actives l' h
    rw [settleFailedLoop] at h
    by_cases hdebt : f.initialAmount - f.remainingAmount ≤ 0
    · rw [if_pos hdebt] at h
      exact ih l actives l' h
    · rw [if_neg hdebt, settleFromActives_eq] at h
      simp only at h
      by_cases hrem : f.initialAmount - f.remainingAmount
          ≤ (specSettleTakes now actives (f.initialAmount - f.remainingAmount)).2.1
      · rw [if_pos hrem] at h
        cases h
        exact ⟨rfl, rfl⟩
      · rw [if_neg hrem] at h
        by_cases hovf : maxInt64 < f.remainingAmount
            + (f.initialAmount - f.remainingAmount
              - (specSettleTakes now actives (f.initialAmount - f.remainingAmount)).2.1)
        · rw [if_pos hovf] at h
          exact absurd h (by simp)
        · rw [if_neg hovf] at h
          have hih := ih _ _ l' h
          exact ⟨hih.1, hih.2⟩

/-- Under the int64 bound on the involved grants the outer settlement loop
never hits the overflow guard: it returns a state. -/
theorem settleFailedLoop_ok (now : GoTime) (op : CreditOperation) :
    ∀ (fs : List CreditGrant) (l : Ledger) (actives : List CreditGrant),
      (∀ f ∈ fs, f.initialAmount ≤ maxInt64) →
      ∃ l', settleFailedLoop now op l actives fs = .ok l' := by
  intro fs
  induction fs with
  | nil => intro l actives _; exact ⟨l, rfl⟩
  | cons f rest ih =>
    intro l actives hwf
    rw [settleFailedLoop]
    by_cases hdebt : f.initialAmount - f.remainingAmount ≤ 0
    · rw [if_pos hdebt]
      exact ih l actives (fun f hf => hwf f (List.mem_cons_of_mem _ hf))
    · rw [if_neg hdebt, settleFromActives_eq]
      simp only
      by_cases hrem : f.initialAmount - f.remainingAmount
          ≤ (specSettleTakes now actives (f.initialAmount - f.remainingAmount)).2.1
      · rw [if_pos hrem]
        exact ⟨_, rfl⟩
      · rw [if_neg hrem]
        have hb := specSettleTakes_rem_bounds now actives
          (f.initialAmount - f.remainingAmount) (by omega)
        have hmax := hwf f (List.mem_cons_self f rest)
        rw [if_neg (by omega)]
        exact ih _ _ (fun f hf => hwf f (List.mem_cons_of_mem _ hf))

/-- Rows returned by `getFailedGrants` are failed-with-debt rows of the
table. -/
theorem mem_getFailedGrants {l : Ledger} {license asset : String} {f : CreditGrant}
    (h : f ∈ getFailedGrants l license asset) :
    f ∈ l.grants ∧ isFailedWithDebt license asset f = true := by
  unfold getFailedGrants at h
  rw [(List.perm_insertionSort createdLe _).mem_iff, List.mem_filter] at h
  exact h

/-! ## Claim C4 -/

/-- At most one operation row per idempotency key
`(app_name, reference_id, operation_type)`. -/
def opsKeyUnique (l : Ledger) : Prop :=
  l.operations.Pairwise (fun a b => sameOpKey a b = false)

theorem insertOperation_uniqueness {l l' : Ledger} {op : CreditOperation}
    (h : insertOperation l op = some l') (hu : opsKeyUnique l) : opsKeyUnique l' := by
  unfold insertOperation at h
  by_cases hc : (l.operations.any fun o => sameOpKey o op) = true
  · rw [if_pos hc] at h
    exact absurd h (by simp)
  · rw [if_neg hc] at h
    cases h
    unfold opsKeyUnique
    rw [List.pairwise_append]
    refine ⟨hu, List.pairwise_singleton _ _, ?_⟩
    intro a ha b hb
    rw [List.mem_singleton] at hb
    subst hb
    refine Bool.eq_false_iff.mpr (fun hT => hc ?_)
    exact List.any_eq_true.mpr ⟨a, ha, hT⟩

theorem insertGrantRow_some {l l1 : Ledger} {g : CreditGrant}
    (h : insertGrantRow l g = some l1) :
    l1 = { l with grants := l.grants ++ [g], nextGrantID := l.nextGrantID + 1 } := by
  unfold insertGrantRow at h
  by_cases hc : (g.logIndex.isSome
      && l.grants.any fun h' =>
        decide (h'.txHash = g.txHash) && decide (h'.logIndex = g.logIndex)
          && h'.logIndex.isSome) = true
  · rw [if_pos hc] at h
    exact absurd h (by simp)
  · rw [if_neg hc] at h
    cases h
    rfl

/-- With no outstanding debt, `settleDebt` is the identity. -/
theorem settleDebt_no_debt {l : Ledger} {now : GoTime} {license asset app ref : String}
    (h : getOutstandingDebt l license asset = 0) :
    settleDebt l now license asset app ref = .ok l := by
  simp [settleDebt, h]

theorem settleDebt_uniqueness {l l' : Ledger} {now : GoTime} {license asset app ref : String}
    (h : settleDebt l now license asset app ref = .ok l') (hu : opsKeyUnique l) :
    opsKeyUnique l' := by
  simp only [settleDebt] at h
  split at h
  · cases h; exact hu
  · split at h
    · cases h; exact hu
    · split at h
      · simp at h
      · rename_i l1 heq
        have hops := settleFailedLoop_operations now _ _ l1 _ l' h
        have hu1 := insertOperation_uniqueness heq hu
        unfold opsKeyUnique at *
        rw [hops.1]
        exact hu1

theorem deduct_uniqueness {l l' : Ledger} {now : GoTime} {license asset : String}
    {amt : Nat} {app ref : String} {op' : CreditOperation}
    (h : deductCreditsInternal l now license asset amt app ref = .ok (op', l'))
    (hu : opsKeyUnique l) : opsKeyUnique l' := by
  simp only [deductCreditsInternal] at h
  split at h
  · simp at h
  · split at h
    · simp at h
    · split at h
      · simp at h
      · split at h
        · simp at h
        · rename_i l1 heq
          simp only [Except.ok.injEq, Prod.mk.injEq] at h
          obtain ⟨-, h2⟩ := h
          subst h2
          have hu1 := insertOperation_uniqueness heq hu
          unfold opsKeyUnique at *
          rw [deductLoop_eq]
          exact hu1

theorem createGrant_uniqueness {l l' : Ledger} {now : GoTime} {license asset : String}
    {amt : Nat} {tx : String} {mint : GoTime} {op' : CreditOperation}
    (h : createGrantInternal l now license asset amt tx mint = .ok (op', l'))
    (hu : opsKeyUnique l) : opsKeyUnique l' := by
  simp only [createGrantInternal] at h
  split at h
  · simp at h
  · split at h
    · simp at h
    · split at h
      · simp at h
      · rename_i l1 heqG
        split at h
        · simp at h
        · rename_i l2 heqO
          obtain rfl := insertGrantRow_some heqG
          have hu2 : opsKeyUnique l2 := insertOperation_uniqueness heqO hu
          split at h
          · simp at h
          · rename_i l3 heqS
            simp only [Except.ok.injEq, Prod.mk.injEq] at h
            obtain ⟨-, h2⟩ := h
            subst h2
            exact settleDebt_uniqueness heqS hu2

theorem confirmGrant_uniqueness {l l' : Ledger} {now : GoTime} {license asset tx : String}
    {lix : Int} {amt : Nat} {mint : GoTime} {op' : CreditOperation}
    (h : confirmGrantInternal l now license asset tx lix amt mint = .ok (op', l'))
    (hu : opsKeyUnique l) : opsKeyUnique l' := by
  simp only [confirmGrantInternal] at h
  split at h
  · simp at h
  · split at h
    · simp at h
    · cases hfind : findOldestPending l license asset tx with
      | some g =>
        rw [hfind] at h
        simp only at h
        split at h
        · simp at h
        · rename_i l2 heqO
          have hu2 : opsKeyUnique l2 := insertOperation_uniqueness heqO hu
          split at h
          · simp at h
          · rename_i l3 heqS
            simp only [Except.ok.injEq, Prod.mk.injEq] at h
            obtain ⟨-, h2⟩ := h
            subst h2
            exact settleDebt_uniqueness heqS hu2
      | none =>
        rw [hfind] at h
        simp only at h
        cases hins : insertGrantRow l
            { id := l.nextGrantID, licenseID := license, assetDID := asset,
              initialAmount := (amt : Int), remainingAmount := (amt : Int),
              status := .confirmed, txHash := tx, logIndex := some lix,
              expiresAt := getExpirationDate mint, createdAt := now, updatedAt := now } with
        | none =>
          rw [hins] at h
          simp at h
        | some l1 =>
          rw [hins] at h
          simp only [Option.map_some'] at h
          obtain rfl := insertGrantRow_some hins
          split at h
          · simp at h
          · rename_i l2 heqO
            have hu2 : opsKeyUnique l2 := insertOperation_uniqueness heqO hu
            split at h
            · simp at h
            · rename_i l3 heqS
              simp only [Except.ok.injEq, Prod.mk.injEq] at h
              obtain ⟨-, h2⟩ := h
              subst h2
              exact settleDebt_uniqueness heqS hu2

/-- A replayed deduction (existing `(app, ref, deduction)` key) that passes
the debt and balance checks hits the duplicate key on the operation insert
and is classified "operation already exists". -/
theorem deduct_duplicate_classified (l : Ledger) (now : GoTime) (license asset : String)
    (deductionAmount : Nat) (appName referenceID : String)
    (hsize : deductionAmount ≤ maxInt64N)
    (hdebt : getOutstandingDebt l license asset = 0)
    (havail : (deductionAmount : Int) ≤ ((getActiveGrants l now license asset).map
        (fun g => g.remainingAmount)).sum)
    (hdup : hasOpKey l appName referenceID .deduction = true) :
    deductCreditsInternal l now license asset deductionAmount appName referenceID
      = .error .operationAlreadyExists := by
  unfold deductCreditsInternal
  rw [if_neg (by omega)]
  simp only
  rw [hdebt, if_neg (by omega), if_neg (by omega)]
  rw [insertOperation_of_dup l
    ⟨appName, referenceID, .deduction, license, asset, (deductionAmount : Int), now⟩
    hdup]

/-- A `ConfirmGrant` that finds a pending grant and hits an existing
`(credit_tracker, grant_id, grant_confirm)` key fails with the *generic*
"failed to create operation record" error: `confirmGrantInternal` has no
duplicate-key classification on its operation insert. -/
theorem confirm_duplicate_generic (l : Ledger) (now : GoTime) (license asset tx : String)
    (lix : Int) (creditAmount : Nat) (mint : GoTime) (g : CreditGrant)
    (hpos : 0 < creditAmount) (hsize : creditAmount ≤ maxInt64N)
    (hfind : findOldestPending l license asset tx = some g)
    (hdup : hasOpKey l "credit_tracker" (grantRef g.id) .grantConfirm = true) :
    confirmGrantInternal l now license asset tx lix creditAmount mint
      = .error .createOperationFailed := by
  unfold confirmGrantInternal
  rw [if_neg (by omega), if_neg (by omega)]
  simp only
  rw [hfind]
  simp only
  rw [insertOperation_of_dup
    (updateGrantRow l
      { g with logIndex := some lix, status := GrantStatus.confirmed, updatedAt := now })
    ⟨"credit_tracker", grantRef g.id, .grantConfirm, license, asset,
      (creditAmount : Int), now⟩
    hdup]

/-- An existing `grant_confirm` operation row keyed to the pending grant's
id (replay of a confirmation). -/
def c4Op : CreditOperation := ⟨"credit_tracker", "1", .grantConfirm, "L", "A", 100, tZero⟩

/-- A partition with a pending grant (id 1, tx `0xa`) whose
`(credit_tracker, 1, grant_confirm)` operation row already exists. -/
def c4Ledger : Ledger :=
  ⟨[mkGrant 1 100 100 .pending "0xa" none tExp2], [c4Op], [], 2⟩

/-- **C4 counterexample.**  A replayed `ConfirmGrant` whose `grant_confirm`
operation insert hits the duplicate key returns the generic
"failed to create operation record" failure — not the distinguishable
already-performed classification the claim demands (the one `deduct` uses
for its duplicate-key branch). -/
theorem C4_confirm_duplicate_generic_error :
    confirmGrantInternal c4Ledger tNow "L" "A" "0xa" 3 100 tNow
        = .error .createOperationFailed
      ∧ hasOpKey c4Ledger "credit_tracker" "1" .grantConfirm = true
      ∧ RepoError.createOperationFailed ≠ RepoError.operationAlreadyExists := by
  exact ⟨rfl, by decide, by decide⟩

/-- **C4 (amended).**  Key-uniqueness is an invariant: each of
`DeductCredits`, `CreateGrant` and `ConfirmGrant` preserves "at most one
operation row per `(app_name, reference_id, operation_type)`" (conjuncts
1-3); a second deduction with an existing key fails — classified
"operation already exists" — and, the error modelling the rolled-back
transaction, leaves all grant and operation state unchanged (conjunct 4);
but a replayed `ConfirmGrant` whose `grant_confirm` insert hits the
duplicate key fails with the *generic* operation-insert error, not a
distinguishable already-performed classification (conjunct 5). -/
theorem C4_idempotency_amended :
    (∀ (l : Ledger) (now : GoTime) (license asset : String) (amt : Nat)
        (app ref : String) (op' : CreditOperation) (l' : Ledger),
        opsKeyUnique l →
        deductCreditsInternal l now license asset amt app ref = .ok (op', l') →
        opsKeyUnique l')
      ∧ (∀ (l : Ledger) (now : GoTime) (license asset : String) (amt : Nat)
          (tx : String) (mint : GoTime) (op' : CreditOperation) (l' : Ledger),
          opsKeyUnique l →
          createGrantInternal l now license asset amt tx mint = .ok (op', l') →
          opsKeyUnique l')
      ∧ (∀ (l : Ledger) (now : GoTime) (license asset tx : String) (lix : Int)
          (amt : Nat) (mint : GoTime) (op' : CreditOperation) (l' : Ledger),
          opsKeyUnique l →
          confirmGrantInternal l now license asset tx lix amt mint = .ok (op', l') →
          opsKeyUnique l')
      ∧ (∀ (l : Ledger) (now : GoTime) (license asset : String) (amt : Nat)
          (app ref : String),
          amt ≤ maxInt64N →
          getOutstandingDebt l license asset = 0 →
          (amt : Int) ≤ ((getActiveGrants l now license asset).map
              (fun g => g.remainingAmount)).sum →
          hasOpKey l app ref .deduction = true →
          deductCreditsInternal l now license asset amt app ref
            = .error .operationAlreadyExists)
      ∧ (∀ (l : Ledger) (now : GoTime) (license asset tx : String) (lix : Int)
          (amt : Nat) (mint : GoTime) (g : CreditGrant),
          0 < amt → amt ≤ maxInt64N →
          findOldestPending l license asset tx = some g →
          hasOpKey l "credit_tracker" (grantRef g.id) .grantConfirm = true →
          confirmGrantInternal l now license asset tx lix amt mint
            = .error .createOperationFailed) := by
  refine ⟨?_, ?_, ?_, ?_, ?_⟩
  · intro l now license asset amt app ref op' l' hu h
    exact deduct_uniqueness h hu
  · intro l now license asset amt tx mint op' l' hu h
    exact createGrant_uniqueness h hu
  · intro l now license asset tx lix amt mint op' l' hu h
    exact confirmGrant_uniqueness h hu
  · intro l now license asset amt app ref hsize hdebt havail hdup
    exact deduct_duplicate_classified l now license asset amt app ref hsize hdebt havail hdup
  · intro l now license asset tx lix amt mint g hpos hsize hfind hdup
    exact confirm_duplicate_generic l now license asset tx lix amt mint g hpos hsize hfind hdup

/-- A deduction operation row for `(telem, r1)` already exists. -/
def dupLedger : Ledger :=
  { fifoLedger with operations := [⟨"telem", "r1", .deduction, "L", "A", 1, tZero⟩] }

theorem C4_idempotency_amended_witness :
    (1 ≤ maxInt64N ∧ getOutstandingDebt dupLedger "L" "A" = 0
      ∧ ((1 : Nat) : Int) ≤ ((getActiveGrants dupLedger tNow "L" "A").map
          (fun g => g.remainingAmount)).sum
      ∧ hasOpKey dupLedger "telem" "r1" .deduction = true)
      ∧ deductCreditsInternal dupLedger tNow "L" "A" 1 "telem" "r1"
        = .error .operationAlreadyExists :=
  ⟨⟨by decide, by decide, by decide, by decide⟩,
    C4_idempotency_amended.2.2.2.1 dupLedger tNow "L" "A" 1 "telem" "r1"
      (by decide) (by decide) (by decide) (by decide)⟩

/-! ## Claim C9 -/

/-- Replacing a row that is not failed-with-debt cannot create outstanding
debt where there was none. -/
theorem debt_zero_updateRow {l : Ledger} {license asset : String} {g' : CreditGrant}
    (hdebt : getOutstandingDebt l license asset = 0)
    (hnf : isFailedWithDebt license asset g' = false) :
    getOutstandingDebt (updateGrantRow l g') license asset = 0 := by
  have hall := no_failed_of_debt_zero hdebt
  unfold getOutstandingDebt
  have hnil : (updateGrantRow l g').grants.filter (isFailedWithDebt license asset) = [] := by
    rw [List.filter_eq_nil_iff]
    intro a ha
    unfold updateGrantRow at ha
    simp only [List.mem_map] at ha
    obtain ⟨h, hh, rfl⟩ := ha
    by_cases hid : h.id = g'.id
    · rw [if_pos hid]
      simp [hnf]
    · rw [if_neg hid]
      simp [hall h hh]
  rw [hnil]
  rfl

/-- The remaining amount of the grant with a given id in the post-state of a
repository call (`none` when the call failed or the id is absent). -/
def remainingOf (r : Except RepoError (CreditOperation × Ledger)) (id : Nat) : Option Int :=
  match r with
  | .ok (_, l) => (l.grants.find? (fun g => decide (g.id = id))).map
      (fun g => g.remainingAmount)
  | .error _ => none

/-- A partition holding a failed grant with debt 100 (id 1) and a pending
grant with remaining 500 (id 2, tx `0xa`). -/
def c9Ledger : Ledger :=
  ⟨[mkGrant 1 200 100 .failed "0xf" (some 1) tExp1,
    mkGrant 2 500 500 .pending "0xa" none tExp2], [], [], 3⟩

/-- **C9 counterexample.**  On a partition carrying outstanding debt,
`ConfirmGrant` does *not* leave the found pending grant's
`remaining_amount` unchanged: after the status update, `settleDebt` debits
the newly confirmed grant — here from 500 down to 400. -/
theorem C9_settlement_debits_confirmed_grant :
    remainingOf (confirmGrantInternal c9Ledger tNow "L" "A" "0xa" 7 500 tNow) 2 = some 400
      ∧ (findOldestPending c9Ledger "L" "A" "0xa").map (fun g => g.remainingAmount)
          = some 500
      ∧ some (400 : Int) ≠ some (500 : Int) := by
  exact ⟨rfl, by decide, by decide⟩

/-- The post-state of a `ConfirmGrant` that found pending grant `g` on a
debt-free partition: exactly `g`'s row is replaced (status, log index and
update stamp), and the `grant_confirm` operation and operation-grant rows
are appended. -/
def confirmedPost (l : Ledger) (now : GoTime) (license asset : String) (lix : Int)
    (amt : Int) (g : CreditGrant) : Ledger :=
  { l with
    grants := l.grants.map (fun h =>
      if h.id = g.id then
        { g with logIndex := some lix, status := GrantStatus.confirmed, updatedAt := now }
      else h),
    operations := l.operations
      ++ [⟨"credit_tracker", grantRef g.id, .grantConfirm, license, asset, amt, now⟩],
    opGrants := l.opGrants
      ++ [⟨"credit_tracker", grantRef g.id, .grantConfirm, g.id, amt, now⟩] }

/-- **C9 (amended).**  On a partition with no outstanding debt, a
`ConfirmGrant` that finds a pending grant with the given tx hash changes
only that grant's `status` (to confirmed), `log_index` and `updated_at`:
the post-state (`confirmedPost`) replaces exactly that row, leaving
`initial_amount`, `remaining_amount` and every other column unchanged and
every other grant row untouched.  No hypothesis ties the event's `amount`
argument to the grant's amounts, which covers the case where they differ;
the amount is recorded only on the `grant_confirm` operation (final
conjunct).  (When the partition does carry debt, the settlement step may
additionally debit the grant's `remaining_amount`; see the
counterexample.) -/
theorem C9_confirm_frame (l : Ledger) (now : GoTime) (license asset tx : String)
    (lix : Int) (creditAmount : Nat) (mint : GoTime) (g : CreditGrant)
    (hpos : 0 < creditAmount) (hsize : creditAmount ≤ maxInt64N)
    (hfind : findOldestPending l license asset tx = some g)
    (hdebt : getOutstandingDebt l license asset = 0)
    (hnf : isFailedWithDebt license asset
      { g with logIndex := some lix, status := GrantStatus.confirmed, updatedAt := now }
      = false)
    (hfresh : hasOpKey l "credit_tracker" (grantRef g.id) .grantConfirm = false) :
    confirmGrantInternal l now license asset tx lix creditAmount mint
        = .ok (⟨"credit_tracker", grantRef g.id, .grantConfirm, license, asset,
                (creditAmount : Int), now⟩,
            confirmedPost l now license asset lix (creditAmount : Int) g)
      ∧ ({ g with logIndex := some lix, status := GrantStatus.confirmed, updatedAt := now }
          : CreditGrant).initialAmount = g.initialAmount
      ∧ ({ g with logIndex := some lix, status := GrantStatus.confirmed, updatedAt := now }
          : CreditGrant).remainingAmount = g.remainingAmount
      ∧ (⟨"credit_tracker", grantRef g.id, .grantConfirm, license, asset,
          (creditAmount : Int), now⟩ : CreditOperation).totalAmount = (creditAmount : Int) := by
  refine ⟨?_, rfl, rfl, rfl⟩
  have hdz : getOutstandingDebt (confirmedPost l now license asset lix (creditAmount : Int) g)
      license asset = 0 :=
    debt_zero_updateRow hdebt hnf
  unfold confirmGrantInternal
  rw [if_neg (by omega), if_neg (by omega)]
  simp only
  rw [hfind]
  simp only
  rw [insertOperation_of_fresh
    (updateGrantRow l
      { g with logIndex := some lix, status := GrantStatus.confirmed, updatedAt := now })
    ⟨"credit_tracker", grantRef g.id, .grantConfirm, license, asset,
      (creditAmount : Int), now⟩
    hfresh]
  simp only
  split
  · rename_i e heq
    have h2 := (settleDebt_no_debt
      (l := confirmedPost l now license asset lix (creditAmount : Int) g) hdz).symm.trans heq
    exact absurd h2 (by simp)
  · rename_i l3 heq
    have h2 := (settleDebt_no_debt
      (l := confirmedPost l now license asset lix (creditAmount : Int) g) hdz).symm.trans heq
    injection h2 with h3
    rw [h3]

/-- A debt-free partition with one pending grant (id 1, amounts 300,
tx `0xb`). -/
def c9FrameLedger : Ledger :=
  ⟨[mkGrant 1 300 300 .pending "0xb" none tExp2], [], [], 2⟩

def c9G : CreditGrant := mkGrant 1 300 300 .pending "0xb" none tExp2

def c9G' : CreditGrant :=
  { c9G with logIndex := some 9, status := GrantStatus.confirmed, updatedAt := tNow }

theorem C9_confirm_frame_witness :
    (0 < 500 ∧ 500 ≤ maxInt64N
      ∧ findOldestPending c9FrameLedger "L" "A" "0xb" = some c9G
      ∧ getOutstandingDebt c9FrameLedger "L" "A" = 0
      ∧ isFailedWithDebt "L" "A" c9G' = false
      ∧ hasOpKey c9FrameLedger "credit_tracker" (grantRef c9G.id) .grantConfirm = false
      ∧ ((500 : Nat) : Int) ≠ c9G.initialAmount)
      ∧ (confirmGrantInternal c9FrameLedger tNow "L" "A" "0xb" 9 500 tNow
          = .ok (⟨"credit_tracker", grantRef c9G.id, .grantConfirm, "L", "A",
                  ((500 : Nat) : Int), tNow⟩,
              confirmedPost c9FrameLedger tNow "L" "A" 9 ((500 : Nat) : Int) c9G)
        ∧ c9G'.initialAmount = c9G.initialAmount
        ∧ c9G'.remainingAmount = c9G.remainingAmount
        ∧ (⟨"credit_tracker", grantRef c9G.id, .grantConfirm, "L", "A",
            ((500 : Nat) : Int), tNow⟩ : CreditOperation).totalAmount
            = ((500 : Nat) : Int)) :=
  ⟨⟨by decide, by decide, by decide, by decide, by decide, by decide, by decide⟩,
    C9_confirm_frame c9FrameLedger tNow "L" "A" "0xb" 9 500 tNow c9G
      (by decide) (by decide) (by decide) (by decide) (by decide) (by decide)⟩

/-! ## Claim C3 -/

/-- With positive debt, positive active balance and a fresh idempotency key,
`settleDebt` returns a state whose operation table gained exactly one
`debt_settlement` row with `total_amount = min(debt, balance)`. -/
theorem settleDebt_success (l : Ledger) (now : GoTime) (license asset app ref : String)
    (hd : 0 < getOutstandingDebt l license asset)
    (hb : 0 < calculateBalance l now license asset)
    (hfresh : hasOpKey l app ref .debtSettlement = false)
    (hwf : ∀ g ∈ l.grants, g.initialAmount ≤ maxInt64) :
    ∃ l', settleDebt l now license asset app ref = .ok l'
      ∧ l'.operations = l.operations
        ++ [⟨app, ref, .debtSettlement, license, asset,
            min (getOutstandingDebt l license asset) (calculateBalance l now license asset),
            now⟩] := by
  simp only [settleDebt]
  rw [if_neg (by omega), if_neg (by omega)]
  rw [insertOperation_of_fresh l
    ⟨app, ref, .debtSettlement, license, asset,
      min (getOutstandingDebt l license asset) (calculateBalance l now license asset), now⟩
    hfresh]
  simp only
  obtain ⟨l', hl'⟩ := settleFailedLoop_ok now
    ⟨app, ref, .debtSettlement, license, asset,
      min (getOutstandingDebt l license asset) (calculateBalance l now license asset), now⟩
    (getFailedGrants
      { l with operations := l.operations
          ++ [⟨app, ref, .debtSettlement, license, asset,
              min (getOutstandingDebt l license asset)
                (calculateBalance l now license asset), now⟩] } license asset)
    { l with operations := l.operations
        ++ [⟨app, ref, .debtSettlement, license, asset,
            min (getOutstandingDebt l license asset)
              (calculateBalance l now license asset), now⟩] }
    (getActiveGrants
      { l with operations := l.operations
          ++ [⟨app, ref, .debtSettlement, license, asset,
              min (getOutstandingDebt l license asset)
                (calculateBalance l now license asset), now⟩] } now license asset)
    (fun f hf => hwf f (mem_getFailedGrants hf).1)
  refine ⟨l', hl', ?_⟩
  have hops := settleFailedLoop_operations now _ _ _ _ _ hl'
  rw [hops.1]

/-- Scenario S6 pre-state: a failed grant `initial = 50000`,
`remaining = 49900` (debt 100). -/
def s6Ledger : Ledger :=
  ⟨[mkGrant 1 50000 49900 .failed "0xf" (some 1) tExp1], [], [], 2⟩

/-- The `grant_purchase` operation of scenario S6. -/
def s6Op : CreditOperation := ⟨"credit_tracker", "2", .grantPurchase, "L", "A", 50000, tNow⟩

/-- Scenario S6 post-state: the new grant keeps `remaining = 49900` (100
siphoned into the settlement), the failed grant is restored to 50000, and a
`debt_settlement` operation of 100 is recorded. -/
def s6Post : Ledger :=
  { grants :=
      [{ mkGrant 1 50000 50000 .failed "0xf" (some 1) tExp1 with updatedAt := tNow },
       { id := 2, licenseID := "L", assetDID := "A", initialAmount := 50000,
         remainingAmount := 49900, status := .pending, txHash := "0x3", logIndex := none,
         expiresAt := ⟨2025, 2, 15, 0⟩, createdAt := tNow, updatedAt := tNow }],
    operations :=
      [s6Op, ⟨"credit_tracker", "2", .debtSettlement, "L", "A", 100, tNow⟩],
    opGrants :=
      [⟨"credit_tracker", "2", .grantPurchase, 2, 50000, tNow⟩,
       ⟨"credit_tracker", "2", .debtSettlement, 2, 100, tNow⟩,
       ⟨"credit_tracker", "2", .debtSettlement, 1, 100, tNow⟩],
    nextGrantID := 3 }

/-- **C3.**  Debt settlement moves credit from active grants into failed
grants: whenever the outstanding debt `d` and the active balance `b` are
both positive, `settleDebt` records exactly one `debt_settlement` operation
with `total_amount = min(d, b)` (first conjunct); the walk debits the
active grants in FIFO order and credits the failed grants oldest-first —
the loaded lists are exactly the active/failed-with-debt rows sorted by
`(expires_at, created_at, id)` and `(created_at, id)` respectively (second
and third conjuncts).  In particular (scenario S6), a `CreateGrant` of
50000 over a failed grant with debt 100 leaves the new grant at 49900,
restores the failed grant to 50000 and records a `debt_settlement` of 100
(final conjunct). -/
theorem C3_settleDebt_moves_credit :
    (∀ (l : Ledger) (now : GoTime) (license asset app ref : String),
        0 < getOutstandingDebt l license asset →
        0 < calculateBalance l now license asset →
        hasOpKey l app ref .debtSettlement = false →
        (∀ g ∈ l.grants, g.initialAmount ≤ maxInt64) →
        ∃ l', settleDebt l now license asset app ref = .ok l'
          ∧ l'.operations = l.operations
            ++ [⟨app, ref, .debtSettlement, license, asset,
                min (getOutstandingDebt l license asset)
                  (calculateBalance l now license asset), now⟩])
      ∧ (∀ (l : Ledger) (license asset : String),
          (getFailedGrants l license asset).Sorted createdLe
            ∧ ∀ f : CreditGrant, f ∈ getFailedGrants l license asset
                ↔ f ∈ l.grants ∧ isFailedWithDebt license asset f = true)
      ∧ (∀ (l : Ledger) (now : GoTime) (license asset : String),
          (getActiveGrants l now license asset).Sorted fifoLe)
      ∧ createGrantInternal s6Ledger tNow "L" "A" 50000 "0x3" tNow = .ok (s6Op, s6Post) := by
  refine ⟨settleDebt_success, ?_, ?_, ?_⟩
  · intro l license asset
    refine ⟨List.sorted_insertionSort createdLe _, ?_⟩
    intro f
    unfold getFailedGrants
    rw [(List.perm_insertionSort createdLe _).mem_iff, List.mem_filter]
  · intro l now license asset
    exact List.sorted_insertionSort fifoLe _
  · rfl

/-- A partition with a failed grant of debt 100 and an active confirmed
grant with remaining 500. -/
def c3WLedger : Ledger :=
  ⟨[mkGrant 1 200 100 .failed "0xf" (some 1) tExp1,
    mkGrant 2 500 500 .confirmed "0xc" (some 2) tExp2], [], [], 3⟩

theorem C3_settleDebt_moves_credit_witness :
    (0 < getOutstandingDebt c3WLedger "L" "A"
      ∧ 0 < calculateBalance c3WLedger tNow "L" "A"
      ∧ hasOpKey c3WLedger "telem" "rs" .debtSettlement = false
      ∧ (∀ g ∈ c3WLedger.grants, g.initialAmount ≤ maxInt64))
      ∧ ∃ l', settleDebt c3WLedger tNow "L" "A" "telem" "rs" = .ok l'
          ∧ l'.operations = c3WLedger.operations
            ++ [⟨"telem", "rs", .debtSettlement, "L", "A",
                min (getOutstandingDebt c3WLedger "L" "A")
                  (calculateBalance c3WLedger tNow "L" "A"), tNow⟩] :=
  ⟨⟨by decide, by decide, by decide, by decide⟩,
    C3_settleDebt_moves_credit.1 c3WLedger tNow "L" "A" "telem" "rs"
      (by decide) (by decide) (by decide) (by decide)⟩

/-! ## Claim C8: expiry of created grants

The settlement walk touches `remaining_amount`/`updated_at` only, so the
(id ↦ expires_at) view of the grant table is invariant under it; a grant
inserted by `CreateGrant` (or by `ConfirmGrant` without a matching pending
grant) therefore still carries `getExpirationDate mintTime` in the final
state.  The lemmas below track that view through the row updates. -/

/-- Replacing the rows whose id is `i` by `w` (same id, same expiry as the
row `a` being updated) leaves the (id, expires_at) view of the table
unchanged. -/
theorem mapReplace_idExpiry {gs : List CreditGrant} {i : Nat} (w a : CreditGrant)
    (ha : a ∈ gs) (hnd : (gs.map (fun g => g.id)).Nodup)
    (hgi : w.id = i) (hai : a.id = i) (hexp : w.expiresAt = a.expiresAt) :
    (gs.map (fun h => if h.id = i then w else h)).map (fun g => (g.id, g.expiresAt))
      = gs.map (fun g => (g.id, g.expiresAt)) := by
  rw [List.map_map]
  apply List.map_congr_left
  intro h hh
  by_cases hi : h.id = i
  · have heq : h = a := List.inj_on_of_nodup_map hnd hh ha (by rw [hi, hai])
    subst heq
    simp only [Function.comp_apply, if_pos hi]
    rw [hgi, hexp, hi]
  · simp only [Function.comp_apply, if_neg hi]

/-- Row replacement never changes the id column. -/
theorem mapReplace_ids {i : Nat} (gs : List CreditGrant) (w : CreditGrant)
    (hgi : w.id = i) :
    (gs.map (fun h => if h.id = i then w else h)).map (fun g => g.id)
      = gs.map (fun g => g.id) := by
  rw [List.map_map]
  apply List.map_congr_left
  intro h hh
  by_cases hi : h.id = i
  · simp only [Function.comp_apply, if_pos hi]
    rw [hgi, hi]
  · simp only [Function.comp_apply, if_neg hi]

/-- Rows with a different id survive a row replacement untouched. -/
theorem mapReplace_mem_of_ne {gs : List CreditGrant} {i : Nat} {w x : CreditGrant}
    (hx : x ∈ gs) (hne : ¬ x.id = i) :
    x ∈ gs.map (fun h => if h.id = i then w else h) :=
  List.mem_map.mpr ⟨x, hx, by rw [if_neg hne]⟩

/-- The replacement row is in the replaced table (when a row with the
replaced id was). -/
theorem mapReplace_mem_self {gs : List CreditGrant} {i : Nat} {w a : CreditGrant}
    (ha : a ∈ gs) (hai : a.id = i) :
    w ∈ gs.map (fun h => if h.id = i then w else h) :=
  List.mem_map.mpr ⟨a, ha, by rw [if_pos hai]⟩

theorem applyTakes_cons (now : GoTime) (gs : List CreditGrant)
    (g : CreditGrant) (k : Int) (rest : List (CreditGrant × Int)) :
    applyTakes now gs ((g, k) :: rest)
      = applyTakes now
          (gs.map (fun h =>
            if h.id = g.id then
              { g with remainingAmount := g.remainingAmount - k, updatedAt := now }
            else h))
          rest := rfl

/-- Rows whose id no take mentions survive `applyTakes`. -/
theorem applyTakes_mem_of_notin (now : GoTime) :
    ∀ (takes : List (CreditGrant × Int)) (gs : List CreditGrant) (x : CreditGrant),
      x ∈ gs → x.id ∉ takes.map (fun t => t.1.id) → x ∈ applyTakes now gs takes := by
  intro takes
  induction takes with
  | nil => intro gs x hx _; exact hx
  | cons t rest ih =>
    obtain ⟨g, k⟩ := t
    intro gs x hx hni
    simp only [List.map_cons, List.mem_cons, not_or] at hni
    rw [applyTakes_cons]
    exact ih _ x (mapReplace_mem_of_ne hx hni.1) hni.2

/-- `applyTakes` keeps both the id column and the (id, expires_at) view of
the table, provided each take's grant is a current row, the table's ids are
distinct, and the takes reference distinct ids. -/
theorem applyTakes_pres (now : GoTime) :
    ∀ (takes : List (CreditGrant × Int)) (gs : List CreditGrant),
      (gs.map (fun g => g.id)).Nodup →
      (∀ t ∈ takes, t.1 ∈ gs) →
      (takes.map (fun t => t.1.id)).Nodup →
      (applyTakes now gs takes).map (fun g => (g.id, g.expiresAt))
          = gs.map (fun g => (g.id, g.expiresAt))
        ∧ (applyTakes now gs takes).map (fun g => g.id) = gs.map (fun g => g.id) := by
  intro takes
  induction takes with
  | nil => intro gs _ _ _; exact ⟨rfl, rfl⟩
  | cons t rest ih =>
    obtain ⟨g, k⟩ := t
    intro gs hnd hmem htnd
    simp only [List.map_cons, List.nodup_cons] at htnd
    rw [applyTakes_cons]
    have hstep1 := mapReplace_idExpiry (i := g.id)
      { g with remainingAmount := g.remainingAmount - k, updatedAt := now }
      g (hmem (g, k) (List.mem_cons_self _ rest)) hnd rfl rfl rfl
    have hstep2 := mapReplace_ids (i := g.id) gs
      { g with remainingAmount := g.remainingAmount - k, updatedAt := now } rfl
    have hrest := ih
      (gs.map (fun h =>
        if h.id = g.id then
          { g with remainingAmount := g.remainingAmount - k, updatedAt := now }
        else h))
      (by rw [hstep2]; exact hnd)
      (fun t' ht' => mapReplace_mem_of_ne (hmem t' (List.mem_cons_of_mem _ ht'))
        (fun hc => htnd.1 (List.mem_map.mpr ⟨t', ht', hc⟩)))
      htnd.2
    exact ⟨hrest.1.trans hstep1, hrest.2.trans hstep2⟩

/-- Structure of the pure settlement walk: the updated slice keeps the ids
of the input slice, every debit references an input row, and the debited
ids form a (hence duplicate-free) sub-sequence of the slice's ids. -/
theorem specSettleTakes_parts (now : GoTime) :
    ∀ (actives : List CreditGrant) (rem : Int),
      ((specSettleTakes now actives rem).1).map (fun g => g.id)
          = actives.map (fun g => g.id)
        ∧ (∀ t ∈ (specSettleTakes now actives rem).2.2, t.1 ∈ actives)
        ∧ ((specSettleTakes now actives rem).2.2.map (fun t => t.1.id)).Sublist
            (actives.map (fun g => g.id)) := by
  intro actives
  induction actives with
  | nil =>
    intro rem
    simp [specSettleTakes]
  | cons a rest ih =>
    intro rem
    by_cases hle : rem ≤ 0
    · rw [specSettleTakes, if_pos hle]
      simp
    · rw [specSettleTakes, if_neg hle]
      simp only
      by_cases havail : min rem a.remainingAmount ≤ 0
      · rw [if_pos havail]
        obtain ⟨h1, h2, h3⟩ := ih rem
        refine ⟨?_, ?_, ?_⟩
        · simp only [List.map_cons, h1]
        · intro t ht
          exact List.mem_cons_of_mem _ (h2 t ht)
        · exact h3.cons _
      · rw [if_neg havail]
        obtain ⟨h1, h2, h3⟩ := ih (rem - min rem a.remainingAmount)
        refine ⟨?_, ?_, ?_⟩
        · simp only [List.map_cons, h1]
        · intro t ht
          rw [List.mem_cons] at ht
          rcases ht with rfl | ht
          · exact List.mem_cons_self _ _
          · exact List.mem_cons_of_mem _ (h2 t ht)
        · exact h3.cons₂ _

/-- Every row of the walk's updated slice is a row of the table after the
walk's debits are applied. -/
theorem specSettleTakes_mem_after (now : GoTime) :
    ∀ (actives : List CreditGrant) (rem : Int) (gs : List CreditGrant),
      (gs.map (fun g => g.id)).Nodup →
      (actives.map (fun g => g.id)).Nodup →
      (∀ x ∈ actives, x ∈ gs) →
      ∀ x ∈ (specSettleTakes now actives rem).1,
        x ∈ applyTakes now gs (specSettleTakes now actives rem).2.2 := by
  intro actives
  induction actives with
  | nil =>
    intro rem gs _ _ _ x hx
    simp [specSettleTakes] at hx
  | cons a rest ih =>
    intro rem gs hgnd hand hmem x hx
    rw [List.map_cons, List.nodup_cons] at hand
    by_cases hle : rem ≤ 0
    · rw [specSettleTakes, if_pos hle] at hx ⊢
      exact hmem x hx
    · rw [specSettleTakes, if_neg hle] at hx ⊢
      simp only at hx ⊢
      by_cases havail : min rem a.remainingAmount ≤ 0
      · rw [if_pos havail] at hx ⊢
        simp only [List.mem_cons] at hx
        rcases hx with hxa | hx
        · subst hxa
          exact applyTakes_mem_of_notin now _ gs x (hmem x (List.mem_cons_self _ rest))
            (fun hc => hand.1 ((specSettleTakes_parts now rest rem).2.2.mem hc))
        · exact ih rem gs hgnd hand.2 (fun y hy => hmem y (List.mem_cons_of_mem _ hy)) x hx
      · rw [if_neg havail] at hx ⊢
        simp only [List.mem_cons] at hx
        rw [applyTakes_cons]
        rcases hx with hxa | hx
        · subst hxa
          refine applyTakes_mem_of_notin now _ _ _ ?_ ?_
          · exact mapReplace_mem_self (hmem a (List.mem_cons_self _ rest)) rfl
          · intro hc
            exact hand.1
              ((specSettleTakes_parts now rest (rem - min rem a.remainingAmount)).2.2.mem hc)
        · refine ih (rem - min rem a.remainingAmount) _ ?_ hand.2 ?_ x hx
          · rw [mapReplace_ids (i := a.id) gs
              { a with remainingAmount := a.remainingAmount - min rem a.remainingAmount, updatedAt := now } rfl]
            exact hgnd
          · intro y hy
            exact mapReplace_mem_of_ne (hmem y (List.mem_cons_of_mem _ hy))
              (fun hc => hand.1 (List.mem_map.mpr ⟨y, hy, hc⟩))

theorem notin_of_disj {f : CreditGrant} {actives : List CreditGrant}
    (hd : ∀ x ∈ actives, ¬ f.id = x.id) {takes : List (CreditGrant × Int)}
    (hsub : (takes.map (fun t => t.1.id)).Sublist (actives.map (fun g => g.id))) :
    f.id ∉ takes.map (fun t => t.1.id) := by
  intro hc
  have hin := hsub.mem hc
  rw [List.mem_map] at hin
  obtain ⟨y, hy, hyid⟩ := hin
  exact hd y hy hyid.symm

theorem ne_id_of_mem_ids {x f : CreditGrant} {actives actives' : List CreditGrant}
    (hids : actives'.map (fun g => g.id) = actives.map (fun g => g.id))
    (hx : x ∈ actives') (hd : ∀ y ∈ actives, ¬ f.id = y.id) : ¬ x.id = f.id := by
  intro hc
  have hxin : x.id ∈ actives.map (fun g => g.id) := by
    rw [← hids]
    exact List.mem_map.mpr ⟨x, hx, rfl⟩
  rw [List.mem_map] at hxin
  obtain ⟨y, hy, hyid⟩ := hxin
  exact hd y hy ((hyid.trans hc).symm)

/-- The settlement walk only moves `remaining_amount`: when the grant-table
ids are distinct, the loaded lists are current rows, and the failed and
active rows are disjoint, the (id, expires_at) view of the table — and its
id column — are unchanged by `settleFailedLoop`. -/
theorem settleFailedLoop_idExpiry (now : GoTime) (op : CreditOperation) :
    ∀ (fs : List CreditGrant) (l : Ledger) (actives : List CreditGrant) (l' : Ledger),
      settleFailedLoop now op l actives fs = .ok l' →
      (l.grants.map (fun g => g.id)).Nodup →
      (actives.map (fun g => g.id)).Nodup →
      (∀ x ∈ actives, x ∈ l.grants) →
      (fs.map (fun g => g.id)).Nodup →
      (∀ f ∈ fs, f ∈ l.grants) →
      (∀ f ∈ fs, ∀ x ∈ actives, ¬ f.id = x.id) →
      l'.grants.map (fun g => (g.id, g.expiresAt))
          = l.grants.map (fun g => (g.id, g.expiresAt))
        ∧ l'.grants.map (fun g => g.id) = l.grants.map (fun g => g.id) := by
  intro fs
  induction fs with
  | nil =>
    intro l actives l' h _ _ _ _ _ _
    cases h
    exact ⟨rfl, rfl⟩
  | cons f rest ih =>
    intro l actives l' h hlnd hand hamem hfnd hfmem hdisj
    rw [List.map_cons, List.nodup_cons] at hfnd
    rw [settleFailedLoop] at h
    by_cases hdebt : f.initialAmount - f.remainingAmount ≤ 0
    · rw [if_pos hdebt] at h
      exact ih l actives l' h hlnd hand hamem hfnd.2
        (fun f2 hf2 => hfmem f2 (List.mem_cons_of_mem _ hf2))
        (fun f2 hf2 => hdisj f2 (List.mem_cons_of_mem _ hf2))
    · rw [if_neg hdebt, settleFromActives_eq] at h
      simp only at h
      obtain ⟨hpids, hpmem, hpsub⟩ :=
        specSettleTakes_parts now actives (f.initialAmount - f.remainingAmount)
      have hdisjf := hdisj f (List.mem_cons_self f rest)
      have htnd : (((specSettleTakes now actives
          (f.initialAmount - f.remainingAmount)).2.2).map (fun t => t.1.id)).Nodup :=
        hpsub.nodup hand
      have htmem : ∀ t ∈ (specSettleTakes now actives
          (f.initialAmount - f.remainingAmount)).2.2, t.1 ∈ l.grants :=
        fun t ht => hamem t.1 (hpmem t ht)
      have hpres := applyTakes_pres now
        ((specSettleTakes now actives (f.initialAmount - f.remainingAmount)).2.2)
        l.grants hlnd htmem htnd
      by_cases hrem : f.initialAmount - f.remainingAmount
          ≤ (specSettleTakes now actives (f.initialAmount - f.remainingAmount)).2.1
      · rw [if_pos hrem] at h
        cases h
        exact hpres
      · rw [if_neg hrem] at h
        by_cases hovf : maxInt64 < f.remainingAmount
            + (f.initialAmount - f.remainingAmount
              - (specSettleTakes now actives (f.initialAmount - f.remainingAmount)).2.1)
        · rw [if_pos hovf] at h
          exact absurd h (by simp)
        · rw [if_neg hovf] at h
          have hfin1 : f ∈ applyTakes now l.grants
              ((specSettleTakes now actives (f.initialAmount - f.remainingAmount)).2.2) :=
            applyTakes_mem_of_notin now _ _ f (hfmem f (List.mem_cons_self f rest))
              (notin_of_disj hdisjf hpsub)
          have hg1nd : ((applyTakes now l.grants
              ((specSettleTakes now actives
                (f.initialAmount - f.remainingAmount)).2.2)).map (fun g => g.id)).Nodup := by
            rw [hpres.2]
            exact hlnd
          have hstep1 := mapReplace_idExpiry (i := f.id)
            { f with
              remainingAmount := f.remainingAmount + (f.initialAmount - f.remainingAmount
                - (specSettleTakes now actives (f.initialAmount - f.remainingAmount)).2.1),
              updatedAt := now }
            f hfin1 hg1nd rfl rfl rfl
          have hstep2 := mapReplace_ids (i := f.id)
            (applyTakes now l.grants
              ((specSettleTakes now actives (f.initialAmount - f.remainingAmount)).2.2))
            { f with
              remainingAmount := f.remainingAmount + (f.initialAmount - f.remainingAmount
                - (specSettleTakes now actives (f.initialAmount - f.remainingAmount)).2.1),
              updatedAt := now }
            rfl
          have hih := ih _ _ l' h
            (by
              simp only [addOpGrant, updateGrantRow]
              rw [hstep2, hpres.2]
              exact hlnd)
            (by
              rw [hpids]
              exact hand)
            (fun x hx => by
              simp only [addOpGrant, updateGrantRow]
              exact mapReplace_mem_of_ne
                (specSettleTakes_mem_after now actives
                  (f.initialAmount - f.remainingAmount) l.grants hlnd hand hamem x hx)
                (ne_id_of_mem_ids hpids hx hdisjf))
            hfnd.2
            (fun f2 hf2 => by
              simp only [addOpGrant, updateGrantRow]
              exact mapReplace_mem_of_ne
                (applyTakes_mem_of_notin now _ _ f2
                  (hfmem f2 (List.mem_cons_of_mem _ hf2))
                  (notin_of_disj (hdisj f2 (List.mem_cons_of_mem _ hf2)) hpsub))
                (fun hc => hfnd.1 (List.mem_map.mpr ⟨f2, hf2, hc⟩)))
            (fun f2 hf2 x hx => by
              intro hc
              have hxin : x.id ∈ actives.map (fun g => g.id) := by
                rw [← hpids]
                exact List.mem_map.mpr ⟨x, hx, rfl⟩
              rw [List.mem_map] at hxin
              obtain ⟨y, hy, hyid⟩ := hxin
              exact hdisj f2 (List.mem_cons_of_mem _ hf2) y hy (hc.trans hyid.symm))
          simp only [addOpGrant, updateGrantRow] at hih
          exact ⟨hih.1.trans (hstep1.trans hpres.1), hih.2.trans (hstep2.trans hpres.2)⟩

theorem sortFilter_ids_nodup (r : CreditGrant → CreditGrant → Prop) [DecidableRel r]
    (p : CreditGrant → Bool) (gs : List CreditGrant)
    (hnd : (gs.map (fun g => g.id)).Nodup) :
    ((List.insertionSort r (gs.filter p)).map (fun g => g.id)).Nodup := by
  have hperm := (List.perm_insertionSort r (gs.filter p)).map (fun g => g.id)
  rw [hperm.nodup_iff]
  exact ((List.filter_sublist gs).map (fun g => g.id)).nodup hnd

/-- Rows returned by `getActiveGrants` are active rows of the table. -/
theorem mem_getActiveGrants {l : Ledger} {now : GoTime} {license asset : String}
    {g : CreditGrant} (h : g ∈ getActiveGrants l now license asset) :
    g ∈ l.grants ∧ isActiveGrant now license asset g = true := by
  unfold getActiveGrants at h
  rw [(List.perm_insertionSort fifoLe _).mem_iff, List.mem_filter] at h
  exact h

theorem status_of_active {now : GoTime} {license asset : String} {g : CreditGrant}
    (h : isActiveGrant now license asset g = true) :
    g.status = GrantStatus.confirmed ∨ g.status = GrantStatus.pending := by
  simp only [isActiveGrant, Bool.and_eq_true, Bool.or_eq_true, decide_eq_true_eq] at h
  exact h.2

theorem status_of_failed {license asset : String} {g : CreditGrant}
    (h : isFailedWithDebt license asset g = true) : g.status = GrantStatus.failed := by
  simp only [isFailedWithDebt, Bool.and_eq_true, decide_eq_true_eq] at h
  exact h.1.2

theorem insertOperation_some {l l1 : Ledger} {op : CreditOperation}
    (h : insertOperation l op = some l1) :
    l1 = { l with operations := l.operations ++ [op] } := by
  unfold insertOperation at h
  by_cases hc : (l.operations.any fun o => sameOpKey o op) = true
  · rw [if_pos hc] at h
    exact absurd h (by simp)
  · rw [if_neg hc] at h
    cases h
    rfl

/-- `settleDebt` never changes a grant's `expires_at` (nor adds or removes
grant rows): the (id, expires_at) view of the table is invariant. -/
theorem settleDebt_idExpiry {l l' : Ledger} {now : GoTime} {license asset app ref : String}
    (h : settleDebt l now license asset app ref = .ok l')
    (hnd : (l.grants.map (fun g => g.id)).Nodup) :
    l'.grants.map (fun g => (g.id, g.expiresAt))
        = l.grants.map (fun g => (g.id, g.expiresAt))
      ∧ l'.grants.map (fun g => g.id) = l.grants.map (fun g => g.id) := by
  simp only [settleDebt] at h
  split at h
  · cases h; exact ⟨rfl, rfl⟩
  · split at h
    · cases h; exact ⟨rfl, rfl⟩
    · split at h
      · simp at h
      · rename_i l1 heq
        obtain rfl := insertOperation_some heq
        have hmain := settleFailedLoop_idExpiry now _ _ _ _ l' h
          hnd
          (sortFilter_ids_nodup fifoLe _ _ hnd)
          (fun x hx => (mem_getActiveGrants hx).1)
          (sortFilter_ids_nodup createdLe _ _ hnd)
          (fun f hf => (mem_getFailedGrants hf).1)
          (fun f hf x hx => by
            intro hc
            have hf' := mem_getFailedGrants hf
            have hx' := mem_getActiveGrants hx
            have heq2 : f = x := List.inj_on_of_nodup_map hnd hf'.1 hx'.1 hc
            have hsf := status_of_failed hf'.2
            have hsx := status_of_active hx'.2
            rw [heq2] at hsf
            rcases hsx with hsx | hsx <;> rw [hsf] at hsx <;> exact GrantStatus.noConfusion hsx)
        exact ⟨hmain.1, hmain.2⟩

/-- A grant row minted by `createGrantInternal`'s happy path carries
`expires_at = getExpirationDate mintTime` and the table's next id; the rest
of the call (operation insert, settlement) touches no other row's
`expires_at`. -/
theorem createGrant_expiry {l : Ledger} {now : GoTime} {license asset : String}
    {amt : Nat} {tx : String} {mint : GoTime} {op' : CreditOperation} {l' : Ledger}
    (h : createGrantInternal l now license asset amt tx mint = .ok (op', l'))
    (hnd : (l.grants.map (fun g => g.id)).Nodup)
    (hfresh : ∀ g ∈ l.grants, ¬ g.id = l.nextGrantID) :
    l'.grants.map (fun g => (g.id, g.expiresAt))
      = l.grants.map (fun g => (g.id, g.expiresAt))
        ++ [(l.nextGrantID, getExpirationDate mint)] := by
  simp only [createGrantInternal] at h
  split at h
  · exact absurd h (by simp)
  · split at h
    · exact absurd h (by simp)
    · split at h
      · exact absurd h (by simp)
      · rename_i l1 heqG
        obtain rfl := insertGrantRow_some heqG
        split at h
        · exact absurd h (by simp)
        · rename_i l2 heqO
          obtain rfl := insertOperation_some heqO
          split at h
          · exact absurd h (by simp)
          · rename_i l3 heqS
            injection h with h2
            injection h2 with h3 h4
            subst h4
            have hnd2 : ((l.grants ++
                [({ id := l.nextGrantID, licenseID := license, assetDID := asset,
                    initialAmount := (amt : Int), remainingAmount := (amt : Int),
                    status := .pending, txHash := tx, logIndex := none,
                    expiresAt := getExpirationDate mint, createdAt := now,
                    updatedAt := now } : CreditGrant)]).map (fun g => g.id)).Nodup := by
              rw [List.map_append, List.nodup_append]
              refine ⟨hnd, List.nodup_singleton _, ?_⟩
              intro a ha hb
              rw [List.mem_map] at ha
              obtain ⟨g, hg, rfl⟩ := ha
              rw [List.map_cons, List.map_nil, List.mem_singleton] at hb
              exact hfresh g hg hb
            have hres := settleDebt_idExpiry heqS hnd2
            have hstep : (List.map (fun g => (g.id, g.expiresAt)) (l.grants ++
                [({ id := l.nextGrantID, licenseID := license, assetDID := asset,
                    initialAmount := (amt : Int), remainingAmount := (amt : Int),
                    status := .pending, txHash := tx, logIndex := none,
                    expiresAt := getExpirationDate mint, createdAt := now,
                    updatedAt := now } : CreditGrant)]))
                = l.grants.map (fun g => (g.id, g.expiresAt))
                  ++ [(l.nextGrantID, getExpirationDate mint)] := by
              rw [List.map_append]
              rfl
            exact hres.1.trans hstep

/-- When `ConfirmGrant` finds no pending grant for the tx hash, the fresh
confirmed grant it inserts carries `expires_at = getExpirationDate mintTime`,
and no other row's `expires_at` changes. -/
theorem confirmGrant_expiry {l : Ledger} {now : GoTime} {license asset tx : String}
    {lix : Int} {amt : Nat} {mint : GoTime} {op' : CreditOperation} {l' : Ledger}
    (h : confirmGrantInternal l now license asset tx lix amt mint = .ok (op', l'))
    (hfp : findOldestPending l license asset tx = none)
    (hnd : (l.grants.map (fun g => g.id)).Nodup)
    (hfresh : ∀ g ∈ l.grants, ¬ g.id = l.nextGrantID) :
    l'.grants.map (fun g => (g.id, g.expiresAt))
      = l.grants.map (fun g => (g.id, g.expiresAt))
        ++ [(l.nextGrantID, getExpirationDate mint)] := by
  simp only [confirmGrantInternal] at h
  split at h
  · simp at h
  · split at h
    · simp at h
    · rw [hfp] at h
      simp only at h
      cases hins : insertGrantRow l
          { id := l.nextGrantID, licenseID := license, assetDID := asset,
            initialAmount := (amt : Int), remainingAmount := (amt : Int),
            status := .confirmed, txHash := tx, logIndex := some lix,
            expiresAt := getExpirationDate mint, createdAt := now, updatedAt := now } with
      | none =>
        rw [hins] at h
        simp at h
      | some l1 =>
        rw [hins] at h
        simp only [Option.map_some'] at h
        obtain rfl := insertGrantRow_some hins
        split at h
        · simp at h
        · rename_i l2 heqO
          obtain rfl := insertOperation_some heqO
          split at h
          · simp at h
          · rename_i l3 heqS
            simp only [Except.ok.injEq, Prod.mk.injEq] at h
            obtain ⟨-, h2⟩ := h
            subst h2
            have hnd2 : ((l.grants ++
                [({ id := l.nextGrantID, licenseID := license, assetDID := asset,
                    initialAmount := (amt : Int), remainingAmount := (amt : Int),
                    status := .confirmed, txHash := tx, logIndex := some lix,
                    expiresAt := getExpirationDate mint, createdAt := now,
                    updatedAt := now } : CreditGrant)]).map (fun g => g.id)).Nodup := by
              rw [List.map_append, List.nodup_append]
              refine ⟨hnd, List.nodup_singleton _, ?_⟩
              intro a ha hb
              rw [List.mem_map] at ha
              obtain ⟨g, hg, rfl⟩ := ha
              rw [List.map_cons, List.map_nil, List.mem_singleton] at hb
              exact hfresh g hg hb
            have hres := settleDebt_idExpiry heqS hnd2
            have hstep : (List.map (fun g => (g.id, g.expiresAt)) (l.grants ++
                [({ id := l.nextGrantID, licenseID := license, assetDID := asset,
                    initialAmount := (amt : Int), remainingAmount := (amt : Int),
                    status := .confirmed, txHash := tx, logIndex := some lix,
                    expiresAt := getExpirationDate mint, createdAt := now,
                    updatedAt := now } : CreditGrant)]))
                = l.grants.map (fun g => (g.id, g.expiresAt))
                  ++ [(l.nextGrantID, getExpirationDate mint)] := by
              rw [List.map_append]
              rfl
            exact hres.1.trans hstep

/-- Calendar reading of `getExpirationDate`: on a valid date whose day also
exists in the following month, `AddDate(0, 1, 0)` is "same day and time next
month", rolling December into January of the next year. -/
theorem getExpirationDate_calendar (t : GoTime)
    (h1 : 1 ≤ t.month) (h2 : t.month ≤ 12)
    (h3 : t.day ≤ daysInMonth (if t.month = 12 then t.year + 1 else t.year)
        (if t.month = 12 then 1 else t.month + 1)) :
    getExpirationDate t =
      { year := if t.month = 12 then t.year + 1 else t.year,
        month := if t.month = 12 then 1 else t.month + 1,
        day := t.day, secs := t.secs } := by
  simp only [getExpirationDate, addOneMonth]
  by_cases hm : t.month = 12
  · have hc1 : t.month + 1 > 12 := by omega
    rw [if_pos hc1, if_pos hc1]
    have h12 : t.month + 1 - 12 = 1 := by omega
    rw [h12]
    rw [if_pos hm, if_pos hm] at h3
    rw [if_neg (by omega)]
    rw [if_pos hm, if_pos hm]
  · have hc1 : ¬ t.month + 1 > 12 := by omega
    rw [if_neg hc1, if_neg hc1]
    rw [if_neg hm, if_neg hm] at h3
    rw [if_neg (by omega)]
    rw [if_neg hm, if_neg hm]

/-! ## Claim C8: `expires_at` is one calendar month after `mint_time` -/

/-- Counterexample to C8 as stated: on an end-of-month mint the Go
normalization of `AddDate(0, 1, 0)` rolls the overflowing day past the
following month, so the expiry of a grant minted 2025-01-31 is 2025-03-03 —
neither "January 31 plus one calendar month" clamped (2025-02-28) nor any
instant inside the following calendar month. -/
theorem C8_month_overflow_cex :
    getExpirationDate ⟨2025, 1, 31, 0⟩ = ⟨2025, 3, 3, 0⟩
      ∧ ¬ getExpirationDate ⟨2025, 1, 31, 0⟩ = ⟨2025, 2, 28, 0⟩
      ∧ ¬ (getExpirationDate ⟨2025, 1, 31, 0⟩).month = 2 := by
  refine ⟨rfl, by decide, by decide⟩

def w8Ledger : Ledger := { grants := [], operations := [], opGrants := [], nextGrantID := 7 }

/-- C8 (amended): every grant row inserted by `CreateGrant`, and every fresh
grant row inserted by `ConfirmGrant` when no pending grant matches the tx
hash, carries `expires_at = getExpirationDate mint_time` — Go
`mint_time.UTC().AddDate(0, 1, 0)` — and the rest of the call (the operation
and operation-grant inserts and the debt settlement) changes no row's
`expires_at`; whenever the mint day also exists in the following month,
`getExpirationDate` is "same day and time of day, next calendar month, UTC",
December rolling into January of the next year.  (For a mint day missing
from the following month the expiry instead rolls past it: see the
counterexample.) -/
theorem C8_expiry_one_month :
    (∀ (l : Ledger) (now : GoTime) (license asset : String) (amt : Nat) (tx : String)
        (mint : GoTime) (op' : CreditOperation) (l' : Ledger),
        createGrantInternal l now license asset amt tx mint = .ok (op', l') →
        (l.grants.map (fun g => g.id)).Nodup →
        (∀ g ∈ l.grants, ¬ g.id = l.nextGrantID) →
        l'.grants.map (fun g => (g.id, g.expiresAt))
          = l.grants.map (fun g => (g.id, g.expiresAt))
            ++ [(l.nextGrantID, getExpirationDate mint)])
      ∧ (∀ (l : Ledger) (now : GoTime) (license asset tx : String) (lix : Int) (amt : Nat)
        (mint : GoTime) (op' : CreditOperation) (l' : Ledger),
        confirmGrantInternal l now license asset tx lix amt mint = .ok (op', l') →
        findOldestPending l license asset tx = none →
        (l.grants.map (fun g => g.id)).Nodup →
        (∀ g ∈ l.grants, ¬ g.id = l.nextGrantID) →
        l'.grants.map (fun g => (g.id, g.expiresAt))
          = l.grants.map (fun g => (g.id, g.expiresAt))
            ++ [(l.nextGrantID, getExpirationDate mint)])
      ∧ (∀ t : GoTime, 1 ≤ t.month → t.month ≤ 12 →
        t.day ≤ daysInMonth (if t.month = 12 then t.year + 1 else t.year)
            (if t.month = 12 then 1 else t.month + 1) →
        getExpirationDate t =
          { year := if t.month = 12 then t.year + 1 else t.year,
            month := if t.month = 12 then 1 else t.month + 1,
            day := t.day, secs := t.secs }) :=
  ⟨fun l now license asset amt tx mint op2 l2 h hnd hf =>
      createGrant_expiry h hnd hf,
   fun l now license asset tx lix amt mint op2 l2 h hfp hnd hf =>
      confirmGrant_expiry h hfp hnd hf,
   getExpirationDate_calendar⟩

theorem C8_expiry_one_month_witness :
    (createGrantInternal w8Ledger tNow "lic" "asset" 50000 "0xmint" tNow
        = .ok ({ appName := "credit_tracker", referenceID := "7",
                 operationType := .grantPurchase, licenseID := "lic",
                 assetDID := "asset", totalAmount := 50000, createdAt := tNow },
               { grants := [{ id := 7, licenseID := "lic", assetDID := "asset",
                              initialAmount := 50000, remainingAmount := 50000,
                              status := .pending, txHash := "0xmint", logIndex := none,
                              expiresAt := ⟨2025, 2, 15, 0⟩, createdAt := tNow,
                              updatedAt := tNow }],
                 operations := [{ appName := "credit_tracker", referenceID := "7",
                                  operationType := .grantPurchase, licenseID := "lic",
                                  assetDID := "asset", totalAmount := 50000,
                                  createdAt := tNow }],
                 opGrants := [{ appName := "credit_tracker", referenceID := "7",
                                operationType := .grantPurchase, grantID := 7,
                                amountUsed := 50000, createdAt := tNow }],
                 nextGrantID := 8 })
      ∧ (w8Ledger.grants.map (fun g => g.id)).Nodup
      ∧ (∀ g ∈ w8Ledger.grants, ¬ g.id = w8Ledger.nextGrantID))
    ∧ ({ grants := [{ id := 7, licenseID := "lic", assetDID := "asset",
                      initialAmount := 50000, remainingAmount := 50000,
                      status := .pending, txHash := "0xmint", logIndex := none,
                      expiresAt := ⟨2025, 2, 15, 0⟩, createdAt := tNow,
                      updatedAt := tNow }],
         operations := [{ appName := "credit_tracker", referenceID := "7",
                          operationType := .grantPurchase, licenseID := "lic",
                          assetDID := "asset", totalAmount := 50000,
                          createdAt := tNow }],
         opGrants := [{ appName := "credit_tracker", referenceID := "7",
                        operationType := .grantPurchase, grantID := 7,
                        amountUsed := 50000, createdAt := tNow }],
         nextGrantID := 8 } : Ledger).grants.map (fun g => (g.id, g.expiresAt))
        = w8Ledger.grants.map (fun g => (g.id, g.expiresAt))
          ++ [(w8Ledger.nextGrantID, getExpirationDate tNow)]
    ∧ (1 ≤ tNow.month ∧ tNow.month ≤ 12
      ∧ tNow.day ≤ daysInMonth (if tNow.month = 12 then tNow.year + 1 else tNow.year)
          (if tNow.month = 12 then 1 else tNow.month + 1))
    ∧ getExpirationDate tNow =
        { year := if tNow.month = 12 then tNow.year + 1 else tNow.year,
          month := if tNow.month = 12 then 1 else tNow.month + 1,
          day := tNow.day, secs := tNow.secs } :=
  ⟨⟨rfl, by decide, by decide⟩,
   C8_expiry_one_month.1 w8Ledger tNow "lic" "asset" 50000 "0xmint" tNow
     { appName := "credit_tracker", referenceID := "7",
       operationType := .grantPurchase, licenseID := "lic",
       assetDID := "asset", totalAmount := 50000, createdAt := tNow }
     { grants := [{ id := 7, licenseID := "lic", assetDID := "asset",
                    initialAmount := 50000, remainingAmount := 50000,
                    status := .pending, txHash := "0xmint", logIndex := none,
                    expiresAt := ⟨2025, 2, 15, 0⟩, createdAt := tNow,
                    updatedAt := tNow }],
       operations := [{ appName := "credit_tracker", referenceID := "7",
                        operationType := .grantPurchase, licenseID := "lic",
                        assetDID := "asset", totalAmount := 50000,
                        createdAt := tNow }],
       opGrants := [{ appName := "credit_tracker", referenceID := "7",
                      operationType := .grantPurchase, grantID := 7,
                      amountUsed := 50000, createdAt := tNow }],
       nextGrantID := 8 }
     rfl (by decide) (by decide),
   ⟨by decide, by decide, by decide⟩,
   C8_expiry_one_month.2.2 tNow (by decide) (by decide) (by decide)⟩

end CreditTracker
